import Mathlib

/-!
The page analyser of uri-info, `internal/service/url.go`

A shallow embedding of the service that fetches a page and derives from it an
HTML version, a title, heading counts, a link count, a count of inaccessible
links and a login-form flag.

Conventions of the embedding

* A Go `string` is a Lean `String`; `strings.Contains` is an executable
  scan, related below to `List.IsInfix` on the characters.
* A Go `int` is an `Int`. All the integers of this program are lengths and
  counters far below `2^63`, so no wrap-around is modelled.
* A Go `error` is an `Option GoError`; `none` is `nil`.
* The parsed document (`goquery.Document` over `golang.org/x/net/html`
  nodes) is a finite tree. The functions of goquery and cascadia that the
  program calls (`Find`, `Contents`, `Text`, `Length`, `Each`, `Attr`, `Html`)
  are transcribed from those libraries.
* The iteration order of the `doctypes` map, the results of the network calls
  and the interleaving of the probe goroutines with the collector are inputs
  of the model.
* The file `internal/errors.go`, the generated queries of the PostgreSQL
  repository and the JSON decoder are not among the sources. The error type
  is written from its callers and tests; the queries, the `uuid` package and
  the decoder are parameters.
-/

namespace UriInfo

/-! ## Strings -/

namespace strings

/-- Go `strings.HasPrefix` on the characters of the two strings. -/
def startsWith : List Char → List Char → Bool
  | _, [] => true
  | [], _ :: _ => false
  | c :: s, d :: p => c == d && startsWith s p

/-- Scan of `s` for an occurrence of `substr`, position by position. -/
def containsChars : List Char → List Char → Bool
  | [], substr => startsWith [] substr
  | c :: s, substr => startsWith (c :: s) substr || containsChars s substr

/-- Go `strings.Contains(s, substr)`. -/
def Contains (s substr : String) : Bool :=
  containsChars s.data substr.data

end strings

/-- The text `substr` occurs in `s` as a substring. -/
def OccursIn (substr s : String) : Prop :=
  substr.data <:+: s.data

/-! ## The doctype table and `detectHTMLVersion` -/

/-- The map `doctypes` as `init` fills it: label (key) and signature (value). -/
def doctypes : List (String × String) :=
  [ ("HTML 4.01 Strict", "\"-//W3C//DTD HTML 4.01//EN\""),
    ("HTML 4.01 Transitional", "\"-//W3C//DTD HTML 4.01 Transitional//EN\""),
    ("HTML 4.01 Frameset", "\"-//W3C//DTD HTML 4.01 Frameset//EN\""),
    ("XHTML 1.0 Strict", "\"-//W3C//DTD XHTML 1.0 Strict//EN\""),
    ("XHTML 1.0 Transitional", "\"-//W3C//DTD XHTML 1.0 Transitional//EN\""),
    ("XHTML 1.0 Frameset", "\"-//W3C//DTD XHTML 1.0 Frameset//EN\""),
    ("XHTML 1.1", "\"-//W3C//DTD XHTML 1.1//EN\""),
    ("HTML 5", "<!DOCTYPE html>") ]

/-- An iteration order of the map: some arrangement of its eight entries.
Go leaves the order of `range` over a map unspecified. -/
def IterationOrder (order : List (String × String)) : Prop :=
  order.Perm doctypes

/-- One pass of the loop body of `detectHTMLVersion`. -/
def detectStep (html : String) (version : String) (entry : String × String) : String :=
  if strings.Contains html entry.2 = true then entry.1 else version

/-- The function `detectHTMLVersion`; `order` is the sequence in which
`range doctypes` yields the entries. -/
def detectHTMLVersion (order : List (String × String)) (html : String) : String :=
  order.foldl (detectStep html) "UNKNOWN"

/-! ## The parsed document

`goquery.NewDocumentFromReader` returns the tree built by `html.Parse`: a
document node whose descendants are element, text, comment and doctype nodes;
only elements have children. -/

namespace html

/-- An attribute of an element, `html.Attribute`. -/
structure Attribute where
  Key : String
  Val : String
deriving DecidableEq

/-- A node below the document node, `html.Node` by its `Type`. -/
inductive Node where
  | text (Data : String)
  | comment (Data : String)
  | doctype (Data : String)
  | element (Data : String) (Attr : List Attribute) (children : List Node)

/-- The children of a node (`FirstChild`, then `NextSibling`). -/
def Node.childNodes : Node → List Node
  | .element _ _ cs => cs
  | _ => []

/-- The test `n.Type == html.ElementNode`. -/
def Node.isElement : Node → Bool
  | .element _ _ _ => true
  | _ => false

end html

open html

/-- The document: the children of the root `DocumentNode`. -/
structure Document where
  children : List Node

/-! ### cascadia selectors -/

/-- A compiled selector. It is applied to a node together with the chain
reached from it through `Parent`, nearest ancestor first. The document node
that ends every chain is left out: it is not an element and no tag selector
matches it. -/
abbrev Selector := List Node → Node → Bool

/-- The cascadia tag selector: an element node whose `Data` is the tag. -/
def tagSelector (tag : String) : Selector := fun _ n =>
  match n with
  | .element d _ _ => d == tag
  | _ => false

/-- The loop `for p := n.Parent; p != nil; p = p.Parent` of the descendant
combinator: some ancestor is matched by `a`. -/
def anyAncestor (a : Selector) : List Node → Bool
  | [] => false
  | p :: ps => a ps p || anyAncestor a ps

/-- The cascadia descendant combinator `a d` (written with a blank). -/
def descendantSelector (a d : Selector) : Selector := fun ancestors n =>
  d ancestors n && anyAncestor a ancestors

/-- The compilation of a selector text, for the selectors of this program:
`body a` and plain tag names. -/
def compileMatcher (selector : String) : Selector :=
  if selector = "body a" then descendantSelector (tagSelector "body") (tagSelector "a")
  else tagSelector selector

mutual
/-- The cascadia traversal `matchAllInto`: the node itself if it matches, then
its descendants, in document order, appended to `storage`. -/
def matchAllInto (s : Selector) (ancestors : List Node) : Node → List Node → List Node
  | .element d a cs, storage =>
    matchAllIntoChildren s (.element d a cs :: ancestors) cs
      (if s ancestors (.element d a cs) then storage ++ [.element d a cs] else storage)
  | .text d, storage => if s ancestors (.text d) then storage ++ [.text d] else storage
  | .comment d, storage => if s ancestors (.comment d) then storage ++ [.comment d] else storage
  | .doctype d, storage => if s ancestors (.doctype d) then storage ++ [.doctype d] else storage
/-- The loop over the children inside `matchAllInto`. -/
def matchAllIntoChildren (s : Selector) (ancestors : List Node) :
    List Node → List Node → List Node
  | [], storage => storage
  | c :: cs, storage => matchAllIntoChildren s ancestors cs (matchAllInto s ancestors c storage)
end

/-- The call `m.MatchAll(c)`. -/
def MatchAll (s : Selector) (ancestors : List Node) (n : Node) : List Node :=
  matchAllInto s ancestors n []

/-! ### goquery -/

/-- The goquery `findWithMatcher` on the document selection: for every element
child of the root, all matches in its subtree. The selection holds the single
root node, so `mapNodes` has no duplicate to drop. -/
def findWithMatcher (m : Selector) : List Node → List Node
  | [] => []
  | c :: cs =>
    (if c.isElement then MatchAll m [] c else []) ++ findWithMatcher m cs

/-- The call `query.Find(selector)` on the document; the nodes of the selection. -/
def Document.Find (query : Document) (selector : String) : List Node :=
  findWithMatcher (compileMatcher selector) query.children

/-- The goquery `Selection.Length`. -/
def Length (sel : List Node) : Int :=
  (sel.length : Int)

/-- The goquery `Selection.Contents`: the children of every node of the
selection, text and comment nodes included. The nodes of a selection are
distinct, so are their children. -/
def Contents : List Node → List Node
  | [] => []
  | n :: ns => n.childNodes ++ Contents ns

mutual
/-- The closure `f` of `Selection.Text`, as the text it writes for one node. -/
def nodeText : Node → String
  | .text d => d
  | .element _ _ cs => nodesText cs
  | .comment _ => ""
  | .doctype _ => ""
/-- The text written for a sequence of nodes, in order. -/
def nodesText : List Node → String
  | [] => ""
  | c :: cs => nodeText c ++ nodesText cs
end

/-- The goquery `Selection.Text`. -/
def Text (sel : List Node) : String :=
  nodesText sel

/-- The goquery `getAttributeValue`: the value of the first attribute with
that key, and whether there is one. -/
def getAttributeValue (attrName : String) (n : Node) : String × Bool :=
  match n with
  | .element _ attrs _ =>
    match attrs.find? (fun a => a.Key == attrName) with
    | some a => (a.Val, true)
    | none => ("", false)
  | _ => ("", false)

/-- The goquery `Selection.Attr` on the one-node selection handed to the
callback of `Each`. -/
def Attr (item : Node) (attrName : String) : String × Bool :=
  getAttributeValue attrName item

namespace internal

/-- Modelled from the spec: the type `ErrorCode` and its constants
`ErrorCodeUnknown`, `ErrorCodeNotFound`, `ErrorCodeInvalidArgument` of
`internal/errors.go`, a file that is not among the sources. The specification
names the three kinds not-found, invalid-argument and internal; the callers and
the tests use these three constants. `other` stands for any further value of
the type. -/
inductive ErrorCode where
  | ErrorCodeUnknown
  | ErrorCodeNotFound
  | ErrorCodeInvalidArgument
  | other (n : Nat)
deriving DecidableEq

end internal

/-- A Go error value. The last two constructors are the values of type
`*internal.Error`. -/
inductive GoError where
  /-- An error made by a library or by the network. -/
  | lib (text : String)
  /-- The value of `errors.New(text)`. -/
  | errorsNew (text : String)
  /-- The value of `fmt.Errorf` with the verb `%w` on `err`. -/
  | wrapped (format : String) (err : GoError)
  /-- An `*internal.Error` without an original error. -/
  | internalError (code : internal.ErrorCode) (msg : String)
  /-- An `*internal.Error` around the original error `orig`. -/
  | internalWrap (orig : GoError) (code : internal.ErrorCode) (msg : String)
deriving DecidableEq

/-- The loop of `Selection.Html` over the children of the root: every child is
rendered into the buffer, the first failure ends the loop. -/
def renderAll (render : Node → Except GoError String) :
    List Node → String → Except GoError String
  | [], buf => .ok buf
  | c :: cs, buf =>
    match render c with
    | .error e => .error e
    | .ok s => renderAll render cs (buf ++ s)

/-- The call `doc.Html()`: the rendering of the children of the root, or the
empty string and the error of `html.Render`. The renderer is a parameter. -/
def Document.Html (render : Node → Except GoError String) (doc : Document) :
    String × Option GoError :=
  match renderAll render doc.children "" with
  | .ok ret => (ret, none)
  | .error e => ("", some e)

/-! ## The detectors on the document -/

/-- The function `detectPageTitle`. -/
def detectPageTitle (query : Document) : String :=
  let title := Contents (query.Find "title")
  Text title

/-- The formatting `fmt.Sprintf` with verb `%d`. -/
def sprintd (n : Int) : String :=
  toString n

/-- The function `detectHeadingsCountByLevel`. -/
def detectHeadingsCountByLevel (query : Document) : String :=
  let h1Count := Length (query.Find "h1")
  let header1 := "h1: " ++ sprintd h1Count
  let h2Count := Length (query.Find "h2")
  let header2 := "h2: " ++ sprintd h2Count
  let h3Count := Length (query.Find "h3")
  let header3 := "h3: " ++ sprintd h3Count
  let h4Count := Length (query.Find "h4")
  let header4 := "h4: " ++ sprintd h4Count
  let h5Count := Length (query.Find "h5")
  let header5 := "h5: " ++ sprintd h5Count
  let h6Count := Length (query.Find "h6")
  let header6 := "h6:  " ++ " " ++ sprintd h6Count
  header1 ++ "  " ++ header2 ++ "  " ++ header3 ++ "  " ++ header4 ++ "  " ++ header5
    ++ "  " ++ header6

/-- The function `detectLinks`. -/
def detectLinks (query : Document) : Int :=
  Length (query.Find "body a")

/-- The slice `links` built by the `Each` callback at the head of
`detectInaccessibleLinksCount`. -/
def extractLinks (query : Document) : List String :=
  (query.Find "body a").map (fun item => (Attr item "href").1)

/-- The vocabulary `loginRelatedWords`. -/
def loginRelatedWords : List String :=
  ["login", "password", "signup", "signin", "logout"]

/-- The loop of `detectHaveLoginForm` over the vocabulary. -/
def containsAnyWord (html : String) : List String → Bool
  | [] => false
  | word :: rest => if strings.Contains html word = true then true else containsAnyWord html rest

/-- The function `detectHaveLoginForm`; the error of `Html` is dropped. -/
def detectHaveLoginForm (render : Node → Except GoError String) (query : Document) : Bool :=
  let html := (query.Html render).1
  containsAnyWord html loginRelatedWords

/-! ## The probes and the collector

`detectInaccessibleLinksCount` starts one goroutine `isAccessible` per link and
then loops on a `select` between a receive from the unbuffered channel
`accessChan` and a timer `time.After(10ms)` created afresh by every evaluation
of the `select`. The run is a sequence of events on a state; time is counted in
milliseconds. -/

/-- The function `isAccessible` once `http.Get` has returned: the values it
sends on `accessChan`, in order. `failed` stands for `err != nil`. -/
def isAccessible (failed : Bool) : List Bool :=
  (if failed then [false] else []) ++ [true]

/-- The state of one probe goroutine. -/
inductive Probe where
  /-- The goroutine is inside `http.Get(url)`. -/
  | getting (url : String)
  /-- The sends still to be made, in order; the goroutine is blocked at the
  first one, or has returned when there is none. -/
  | sending (pending : List Bool)
deriving DecidableEq

/-- The duration of the timer of the `select`, in milliseconds. -/
def timeoutMs : Nat := 10

/-- The state of `detectInaccessibleLinksCount` after the goroutines are launched. -/
structure CollectorState where
  /-- The probe goroutines, one per link, in the order of `links`. -/
  probes : List Probe
  /-- The variable `inaccessibleLinksCount`. -/
  inaccessibleLinksCount : Int
  /-- The present time. -/
  now : Nat
  /-- The time at which the pending `select` created its timer. -/
  timerStart : Nat
  /-- The value returned, once the timer branch has been taken. -/
  returned : Option Int
deriving DecidableEq

/-- What can happen next. -/
inductive Event where
  /-- Time passes. -/
  | advance (ms : Nat)
  /-- The `http.Get` of probe `i` returns, with an error or without. -/
  | getDone (i : Nat) (failed : Bool)
  /-- The `select` takes the receive branch, from the send of probe `i`. -/
  | receive (i : Nat)
  /-- The `select` takes the timer branch. -/
  | timeout
deriving DecidableEq

/-- The state right after the loop `for _, value := range links { go isAccessible(...) }`. -/
def launch (links : List String) : CollectorState :=
  { probes := links.map Probe.getting
    inaccessibleLinksCount := 0
    now := 0
    timerStart := 0
    returned := none }

/-- One event; `none` when the event cannot happen in this state. -/
def step (s : CollectorState) : Event → Option CollectorState
  | .advance ms => some { s with now := s.now + ms }
  | .getDone i failed =>
    match s.probes[i]? with
    | some (.getting _) =>
      some { s with probes := s.probes.set i (.sending (isAccessible failed)) }
    | _ => none
  | .receive i =>
    match s.returned, s.probes[i]? with
    | none, some (.sending (v :: rest)) =>
      some { s with
        probes := s.probes.set i (.sending rest)
        inaccessibleLinksCount :=
          if v = false then s.inaccessibleLinksCount + 1 else s.inaccessibleLinksCount
        timerStart := s.now }
    | _, _ => none
  | .timeout =>
    match s.returned with
    | none =>
      if s.timerStart + timeoutMs ≤ s.now then
        some { s with returned := some s.inaccessibleLinksCount }
      else none
    | some _ => none

/-- A run: the events in order; an event that cannot happen is skipped. -/
def run (s : CollectorState) : List Event → CollectorState
  | [] => s
  | e :: es => run ((step s e).getD s) es

/-- The end of a run. If the loop is still at its `select` when the events are
exhausted, nothing more is received, the timer expires and its branch
returns the count. -/
def finish (s : CollectorState) : Int :=
  match s.returned with
  | some count => count
  | none => s.inaccessibleLinksCount

/-- The function `detectInaccessibleLinksCount`, along the run `schedule`. -/
def detectInaccessibleLinksCount (query : Document) (schedule : List Event) : Int :=
  let links := extractLinks query
  finish (run (launch links) schedule)

/-! ## The service -/

namespace internal

/-- The record `internal.URL`. -/
structure URL where
  ID : String
  HTMLVersion : String
  PageTitle : String
  HeadingsCount : String
  LinksCount : Int
  InaccessibleLinksCount : Int
  HaveLoginForm : Bool
deriving DecidableEq

/-- The zero value `internal.URL{}`. -/
def URL.zero : URL :=
  { ID := "", HTMLVersion := "", PageTitle := "", HeadingsCount := "",
    LinksCount := 0, InaccessibleLinksCount := 0, HaveLoginForm := false }

end internal

/-- The part of `http.Response` that `Search` reads. -/
structure Response where
  StatusCode : Int
  Body : String
deriving DecidableEq

/-- The interface `URLRepository`, as far as `Search` uses it. -/
structure URLRepository where
  Create : String → String → String → Int → Int → Bool → internal.URL × Option GoError

/-- Everything outside the program that one call of `Search` depends on. -/
structure World where
  /-- The call `http.Get(URL)` of `Search`. -/
  httpGet : String → Except GoError Response
  /-- The call `goquery.NewDocumentFromReader(resp.Body)`. -/
  NewDocumentFromReader : String → Except GoError Document
  /-- The renderer `html.Render` behind `Html`. -/
  render : Node → Except GoError String
  /-- The order in which `range doctypes` yields the entries. -/
  order : List (String × String)
  /-- The run of the probes and the collector. -/
  schedule : List Event
  /-- The repository. -/
  repo : URLRepository

/-- The calls that `Search` makes, for the record of what ran. -/
inductive Call where
  | httpGet (URL : String)
  | bodyClose
  | newDocumentFromReader
  | docHtml
  | detectHTMLVersion
  | detectPageTitle
  | detectHeadingsCountByLevel
  | detectLinks
  | detectInaccessibleLinksCount
  | goIsAccessible (url : String)
  | detectHaveLoginForm
  | repoCreate (HTMLVersion pageTitle headingsCount : String)
      (linksCount inaccessibleLinksCount : Int) (haveLoginForm : Bool)
deriving DecidableEq

/-- The steps that follow the parse: the detectors, the probes, the repository. -/
def Call.isDownstream : Call → Bool
  | .httpGet _ => false
  | .bodyClose => false
  | .newDocumentFromReader => false
  | .docHtml => false
  | _ => true

/-- What a call of `Search` yields: its two results, and the calls it made in order. -/
structure SearchResult where
  url : internal.URL
  err : Option GoError
  calls : List Call
deriving DecidableEq

/-- The method `URL.Search`. -/
def Search (w : World) (URL : String) : SearchResult :=
  match w.httpGet URL with
  | .error err => ⟨internal.URL.zero, some err, [.httpGet URL]⟩
  | .ok resp =>
    if resp.StatusCode ≠ 200 then
      ⟨internal.URL.zero, some (.errorsNew "Error Retrieving Document"),
        [.httpGet URL, .bodyClose]⟩
    else
      match w.NewDocumentFromReader resp.Body with
      | .error err =>
        ⟨internal.URL.zero, some (.wrapped "NewDocumentFromReader" err),
          [.httpGet URL, .newDocumentFromReader, .bodyClose]⟩
      | .ok doc =>
        match doc.Html w.render with
        | (_, some err) =>
          ⟨internal.URL.zero, some (.wrapped "doc.Html" err),
            [.httpGet URL, .newDocumentFromReader, .docHtml, .bodyClose]⟩
        | (html, none) =>
          let htmlVersion := detectHTMLVersion w.order html
          let pageTitle := detectPageTitle doc
          let headings := detectHeadingsCountByLevel doc
          let linksCount := detectLinks doc
          let inaccessibleLinksCount := detectInaccessibleLinksCount doc w.schedule
          let haveLoginForm := detectHaveLoginForm w.render doc
          let calls : List Call :=
            [.httpGet URL, .newDocumentFromReader, .docHtml, .detectHTMLVersion,
              .detectPageTitle, .detectHeadingsCountByLevel, .detectLinks,
              .detectInaccessibleLinksCount]
            ++ (extractLinks doc).map Call.goIsAccessible
            ++ [.detectHaveLoginForm,
                .repoCreate htmlVersion pageTitle headings linksCount inaccessibleLinksCount
                  haveLoginForm,
                .bodyClose]
          match w.repo.Create htmlVersion pageTitle headings linksCount
              inaccessibleLinksCount haveLoginForm with
          | (_, some err) => ⟨internal.URL.zero, some (.wrapped "repo create" err), calls⟩
          | (info, none) => ⟨info, none, calls⟩

/-! ## Reference notions

What the detectors are compared with: the elements of a document by tag, the
text content of an element, the anchors below a body element. They are
written by recursion on the tree, without selectors. -/

mutual
/-- The elements with tag `tag` in the subtree of a node, the node included,
in document order. -/
def elementsWithTagIn (tag : String) : Node → List Node
  | .element d a cs =>
    (if d = tag then [.element d a cs] else []) ++ elementsWithTagInList tag cs
  | .text _ => []
  | .comment _ => []
  | .doctype _ => []
/-- The elements with tag `tag` in the subtrees of a sequence of nodes. -/
def elementsWithTagInList (tag : String) : List Node → List Node
  | [] => []
  | c :: cs => elementsWithTagIn tag c ++ elementsWithTagInList tag cs
end

/-- The elements with tag `tag` anywhere in the document, in document order. -/
def elementsWithTag (tag : String) (doc : Document) : List Node :=
  elementsWithTagInList tag doc.children

mutual
/-- The number of elements with tag `tag` in the subtree of a node. -/
def countTagIn (tag : String) : Node → Nat
  | .element d _ cs => (if d = tag then 1 else 0) + countTagInList tag cs
  | .text _ => 0
  | .comment _ => 0
  | .doctype _ => 0
/-- The number of elements with tag `tag` in the subtrees of a sequence of nodes. -/
def countTagInList (tag : String) : List Node → Nat
  | [] => 0
  | c :: cs => countTagIn tag c + countTagInList tag cs
end

/-- The number of elements with tag `tag` anywhere in the document. -/
def countElements (tag : String) (doc : Document) : Nat :=
  countTagInList tag doc.children

/-- The text content of a node: its text descendants, concatenated in order. -/
def textContent (n : Node) : String :=
  nodeText n

/-- The concatenation of a sequence of strings. -/
def concat : List String → String
  | [] => ""
  | s :: ss => s ++ concat ss

/-- The title of the specification: the text content of the first title
element of the document, the empty string when there is none. -/
def firstTitleText (doc : Document) : String :=
  match elementsWithTag "title" doc with
  | [] => ""
  | t :: _ => textContent t

mutual
/-- The anchor elements in the subtree of a node that have a body element
among their ancestors, in document order; `underBody` says whether a body
element lies above the node. -/
def anchorsBelow (underBody : Bool) : Node → List Node
  | .element d a cs =>
    (if underBody = true ∧ d = "a" then [.element d a cs] else [])
      ++ anchorsBelowList (underBody || decide (d = "body")) cs
  | .text _ => []
  | .comment _ => []
  | .doctype _ => []
/-- The anchors under a body element in the subtrees of a sequence of nodes. -/
def anchorsBelowList (underBody : Bool) : List Node → List Node
  | [] => []
  | c :: cs => anchorsBelow underBody c ++ anchorsBelowList underBody cs
end

/-- The anchor elements of the document that are descendants of a body element,
in document order. -/
def anchorsUnderBody (doc : Document) : List Node :=
  anchorsBelowList false doc.children

/-- The attributes of a node. -/
def attributesOf : Node → List Attribute
  | .element _ attrs _ => attrs
  | _ => []

/-- The value of the `href` attribute of a node, the empty string when the node
has no such attribute. -/
def hrefOrEmpty (n : Node) : String :=
  match (attributesOf n).filter (fun a => a.Key = "href") with
  | [] => ""
  | a :: _ => a.Val

/-! ## Sample documents -/

/-- A page whose head holds two title elements:
`<html><head><title>A</title><title>B</title></head><body></body></html>`. -/
def twoTitlesDoc : Document :=
  ⟨[.element "html" [] [
      .element "head" [] [.element "title" [] [.text "A"], .element "title" [] [.text "B"]],
      .element "body" [] []]]⟩

/-- A page with three `h1` elements and no other heading. -/
def threeH1Doc : Document :=
  ⟨[.doctype "html",
    .element "html" [] [
      .element "head" [] [.element "title" [] [.text "T"]],
      .element "body" [] [
        .element "h1" [] [.text "one"],
        .element "div" [] [.element "h1" [] [.text "two"]],
        .element "h1" [] []]]]⟩

/-- A page with three anchors under body, one without `href`, two with the
same `href`, and one anchor outside body. -/
def anchorsDoc : Document :=
  ⟨[.element "html" [] [
      .element "head" [] [.element "a" [⟨"href", "/head"⟩] []],
      .element "body" [] [
        .element "a" [⟨"href", "/x"⟩] [.text "x"],
        .element "p" [] [.element "a" [] [], .element "a" [⟨"class", "k"⟩, ⟨"href", "/x"⟩] []]]]]⟩

/-- A page without any anchor. -/
def noAnchorDoc : Document :=
  ⟨[.element "html" [] [.element "head" [] [], .element "body" [] [.text "Login PASSWORD"]]]⟩

/-- A renderer for the samples: text nodes as they are, elements as their tag
around their children, nothing else. -/
def sampleRender : Node → Except GoError String
  | .text d => .ok d
  | .element d _ cs => .ok ("<" ++ d ++ ">" ++ nodesText cs ++ "</" ++ d ++ ">")
  | .comment _ => .ok ""
  | .doctype d => .ok ("<!DOCTYPE " ++ d ++ ">")

/-- A repository whose `Create` returns its arguments under a fixed identifier,
as the PostgreSQL repository does when the insert succeeds. -/
def echoRepo : URLRepository :=
  ⟨fun HTMLVersion pageTitle headingsCount linksCount inaccessibleLinksCount haveLoginForm =>
    (⟨"7f9c24e8-3b1a-4c5d-9e2f-0a1b2c3d4e5f", HTMLVersion, pageTitle, headingsCount,
        linksCount, inaccessibleLinksCount, haveLoginForm⟩, none)⟩

/-- A world in which the fetch and the parse have the given results. -/
def sampleWorld (fetch : Except GoError Response) (parse : Except GoError Document) : World :=
  { httpGet := fun _ => fetch
    NewDocumentFromReader := fun _ => parse
    render := sampleRender
    order := doctypes
    schedule := [.getDone 0 true, .receive 0, .advance 10, .timeout]
    repo := echoRepo }

/-! ## The measure of the collector -/

/-- The number of `false` values a probe can still send. -/
def Probe.falsesLeft : Probe → Nat
  | .getting _ => 1
  | .sending pending => pending.count false

/-- The number of `false` values the probes can still send, together. -/
def falsesLeft : List Probe → Nat
  | [] => 0
  | p :: ps => p.falsesLeft + falsesLeft ps

/-- The invariant of a run over `n` links: the count and the `false` values
still to come do not exceed `n`, and a returned value lies between 0 and `n`. -/
def CollectorInv (n : Nat) (s : CollectorState) : Prop :=
  0 ≤ s.inaccessibleLinksCount ∧
  s.inaccessibleLinksCount + (falsesLeft s.probes : Int) ≤ (n : Int) ∧
  ∀ c, s.returned = some c → 0 ≤ c ∧ c ≤ (n : Int)

/-- A page that opens with the HTML 5 doctype, quotes the XHTML 1.1 signature
inside a script, and has one link under body. -/
def twoSignaturesDoc : Document :=
  ⟨[.doctype "html",
    .element "html" [] [
      .element "head" [] [
        .element "script" [] [.text "var d = '\"-//W3C//DTD XHTML 1.1//EN\"';"]],
      .element "body" [] [
        .element "a" [⟨"href", "https://unreachable.invalid"⟩] [.text "x"]]]]⟩

/-- The text of a page with the HTML 5 doctype and the XHTML 1.1 signature in a
script. -/
def twoSignaturesText : String :=
  "<!DOCTYPE html><html><head><script>var d = '\"-//W3C//DTD XHTML 1.1//EN\"';</script>" ++
    "</head><body></body></html>"

/-- A world that fetches `twoSignaturesDoc` with status 200, with the given
iteration order and run of the probes. -/
def twoSignaturesWorld (order : List (String × String)) (schedule : List Event) : World :=
  { httpGet := fun _ => .ok ⟨200, ""⟩
    NewDocumentFromReader := fun _ => .ok twoSignaturesDoc
    render := sampleRender
    order := order
    schedule := schedule
    repo := echoRepo }

/-! ## Executions of the collector -/

/-- An execution: the events in order, every one of which happens; `none`
when some event cannot happen in the state it meets. -/
def steps (s : CollectorState) : List Event → Option CollectorState
  | [] => some s
  | e :: es => (step s e).bind (fun t => steps t es)

/-- The test `err != nil` on the two results of `http.Get`. -/
def getFailed : Except GoError Response → Bool
  | .error _ => true
  | .ok _ => false

/-- The time that passes in a sequence of events. -/
def elapsed : List Event → Nat
  | [] => 0
  | .advance ms :: es => ms + elapsed es
  | _ :: es => elapsed es

/-- One event on the time passed since the last receive. -/
def sinceStep (acc : Nat) : Event → Nat
  | .advance ms => acc + ms
  | .receive _ => 0
  | _ => acc

/-- The time passed since the last receive of a sequence of events, or since
its beginning when it has no receive. -/
def sinceLastReceive (es : List Event) : Nat :=
  es.foldl sinceStep 0

/-! ## The errors of the domain

The file `internal/errors.go` is not among the sources. Its type `Error` and
its two constructors are taken from the way `internal/url.go`, the REST layer,
the PostgreSQL repository and the tests use them. -/

namespace internal

/-- Modelled from the spec: the struct `Error` of the absent `internal/errors.go`,
as `errors.As` hands it to the caller: its code and its message. -/
structure Error where
  code : ErrorCode
  msg : String
deriving DecidableEq

/-- Modelled from the spec: the method `Code` of `*Error` in the absent
`internal/errors.go`; the tests compare its value with the constant given to
the constructor. -/
def Error.Code (e : Error) : ErrorCode :=
  e.code

/-- Modelled from the spec: the function `NewErrorf(code, format, a...)` of the
absent `internal/errors.go`: an `*Error` with that code and message. -/
def NewErrorf (code : ErrorCode) (msg : String) : GoError :=
  .internalError code msg

/-- Modelled from the spec: the function `WrapErrorf(orig, code, format, a...)`
of the absent `internal/errors.go`: an `*Error` with that code and message
around `orig`, which `Unwrap` returns. -/
def WrapErrorf (orig : GoError) (code : ErrorCode) (msg : String) : GoError :=
  .internalWrap orig code msg

end internal

/-- The search of `errors.As` for an `*internal.Error` along the chain of
`Unwrap`, from a value that is not nil. -/
def asInternalError : GoError → Option internal.Error
  | .lib _ => none
  | .errorsNew _ => none
  | .wrapped _ err => asInternalError err
  | .internalError code msg => some ⟨code, msg⟩
  | .internalWrap _ code msg => some ⟨code, msg⟩

/-- Go `errors.As(err, &ierr)` for `ierr` of type `*internal.Error`: the value
found, `none` when the result is false. On a nil error the result is false. -/
def errorsAs : Option GoError → Option internal.Error
  | none => none
  | some err => asInternalError err

/-- Go `errors.Is(err, target)` for a target without `Is` method: some error of
the chain of `Unwrap` equals the target. -/
def errorsIs : GoError → GoError → Bool
  | .lib t, target => decide (GoError.lib t = target)
  | .errorsNew t, target => decide (GoError.errorsNew t = target)
  | .wrapped f err, target => decide (GoError.wrapped f err = target) || errorsIs err target
  | .internalError c m, target => decide (GoError.internalError c m = target)
  | .internalWrap orig c m, target =>
    decide (GoError.internalWrap orig c m = target) || errorsIs orig target

/-- The method `URL.Validate` of `internal/url.go`. -/
def internal.URL.Validate (u : internal.URL) : Option GoError :=
  if u.HTMLVersion = "" then
    some (internal.NewErrorf .ErrorCodeInvalidArgument "HTMLVersion is required")
  else if u.PageTitle = "" then
    some (internal.NewErrorf .ErrorCodeInvalidArgument "PageTitle is required")
  else if u.HeadingsCount = "" then
    some (internal.NewErrorf .ErrorCodeInvalidArgument "HeadingsCount is required")
  else none

/-! ## The REST layer -/

namespace rest

/-- The constant `http.StatusOK`. -/
def StatusOK : Int := 200
/-- The constant `http.StatusCreated`. -/
def StatusCreated : Int := 201
/-- The constant `http.StatusBadRequest`. -/
def StatusBadRequest : Int := 400
/-- The constant `http.StatusNotFound`. -/
def StatusNotFound : Int := 404
/-- The constant `http.StatusInternalServerError`. -/
def StatusInternalServerError : Int := 500

/-- The struct `rest.URL` of the responses. -/
structure URL where
  ID : String
  HTMLVersion : String
  PageTitle : String
  HeadingsCount : String
  LinksCount : Int
  InaccessibleLinksCount : Int
  HaveLoginForm : Bool
deriving DecidableEq

/-- The struct `CreateURLsRequest`. -/
structure CreateURLsRequest where
  URL : String
deriving DecidableEq

/-- The values that the handlers hand to `renderResponse`: `ErrorResponse`,
`CreateURLsResponse`, `ReadURLResponse` and the empty struct. -/
inductive Payload where
  | ErrorResponse (Error : String)
  | CreateURLsResponse (URL : URL)
  | ReadURLResponse (URL : URL)
  | emptyStruct
deriving DecidableEq

/-- What the response writer has received: the status of `WriteHeader` and the
value whose JSON encoding is the body. -/
structure Written where
  status : Int
  body : Payload
deriving DecidableEq

/-- The function `renderResponse`. The values of `Payload` are structs of
strings, integers and booleans, which `json.Marshal` encodes without error. -/
def renderResponse (res : Payload) (status : Int) : Written :=
  { status := status, body := res }

/-- The function `renderErrorResponse`; the span that records the error has no
part in the response. -/
def renderErrorResponse (msg : String) (err : Option GoError) : Written :=
  match errorsAs err with
  | none => renderResponse (.ErrorResponse "internal error") StatusInternalServerError
  | some ierr =>
    let status :=
      if ierr.Code = .ErrorCodeNotFound then StatusNotFound
      else if ierr.Code = .ErrorCodeInvalidArgument then StatusBadRequest
      else StatusInternalServerError
    renderResponse (.ErrorResponse msg) status

/-- The interface `URLService`. -/
structure URLService where
  Search : String → internal.URL × Option GoError
  Delete : String → Option GoError
  Find : String → internal.URL × Option GoError

/-- A call of a method of the service. -/
inductive ServiceCall where
  | Search (URL : String)
  | Delete (id : String)
  | Find (id : String)
deriving DecidableEq

/-- What a handler does: the response it writes and the calls of the service
it makes. -/
structure Handled where
  response : Written
  calls : List ServiceCall
deriving DecidableEq

/-- The struct `URLHandler`. -/
structure URLHandler where
  svc : URLService

/-- The handler `search`; `decode` is `json.NewDecoder(r.Body).Decode(&req)` and
`body` the body of the request. -/
def URLHandler.search (u : URLHandler) (decode : String → Except GoError CreateURLsRequest)
    (body : String) : Handled :=
  match decode body with
  | .error err =>
    { response := renderErrorResponse "invalid request"
        (some (internal.WrapErrorf err .ErrorCodeInvalidArgument "json decoder"))
      calls := [] }
  | .ok req =>
    match u.svc.Search req.URL with
    | (_, some err) =>
      { response := renderErrorResponse "search failed" (some err)
        calls := [.Search req.URL] }
    | (url, none) =>
      { response := renderResponse
          (.CreateURLsResponse
            { ID := url.ID
              HTMLVersion := url.HTMLVersion
              PageTitle := url.PageTitle
              HeadingsCount := url.HeadingsCount
              LinksCount := url.LinksCount
              InaccessibleLinksCount := url.InaccessibleLinksCount
              HaveLoginForm := url.HaveLoginForm })
          StatusCreated
        calls := [.Search req.URL] }

/-- The handler `find`; `id` is the path variable of the route. -/
def URLHandler.find (u : URLHandler) (id : String) : Handled :=
  match u.svc.Find id with
  | (_, some err) =>
    { response := renderErrorResponse "find failed" (some err)
      calls := [.Find id] }
  | (url, none) =>
    { response := renderResponse
        (.ReadURLResponse
          { ID := url.ID
            HTMLVersion := url.HTMLVersion
            PageTitle := url.PageTitle
            HeadingsCount := url.HeadingsCount
            LinksCount := url.LinksCount
            InaccessibleLinksCount := url.InaccessibleLinksCount
            HaveLoginForm := url.HaveLoginForm })
        StatusOK
      calls := [.Find id] }

/-- A decoder for the samples: it accepts the two bodies of the tests that are
JSON objects and rejects every other body. -/
def sampleDecode (body : String) : Except GoError CreateURLsRequest :=
  if body = "\x7b\"url\":\"exampleurl\"\x7d" then .ok ⟨"exampleurl"⟩
  else if body = "\x7b\x7d" then .ok ⟨""⟩
  else .error (.lib "unexpected end of JSON input")

/-- The record that the fake service of the tests returns. -/
def sampleRecord : internal.URL :=
  { ID := "1-2-3", HTMLVersion := "22", PageTitle := "url.PageTitle",
    HeadingsCount := "url.HeadingsCount", LinksCount := 2, InaccessibleLinksCount := 3,
    HaveLoginForm := true }

/-- A service that returns `sampleRecord` from `Search` and `Find`. -/
def sampleService : URLService :=
  { Search := fun _ => (sampleRecord, none)
    Delete := fun _ => none
    Find := fun _ => (sampleRecord, none) }

end rest

/-! ## The PostgreSQL repository

The generated package of queries (`New`, `InsertURL`, `SelectURL`) and the
database behind it are not among the sources; they are parameters of the
repository, as is the `uuid` package. -/

namespace postgresql

/-- The Go conversion `int32(n)` of an `int`: the value modulo `2^32`, taken in
the range from `-2^31` to `2^31 - 1`. -/
def int32 (n : Int) : Int :=
  (n + 2147483648) % 4294967296 - 2147483648

/-- The struct `InsertURLParams`; the two counts are of type `int32`. -/
structure InsertURLParams where
  Htmlversion : String
  Pagetitle : String
  Headingscount : String
  Linkscount : Int
  Inaccessiblelinkscount : Int
  Haveloginform : Bool
deriving DecidableEq

/-- The row that `SelectURL` returns; the two counts are of type `int32`. -/
structure Row (U : Type) where
  ID : U
  HtmlVersion : String
  PageTitle : String
  HeadingsCount : String
  LinksCount : Int
  InaccessibleLinksCount : Int
  HaveLoginForm : Bool
deriving DecidableEq

/-- The queries and the `uuid` package, over a type `U` of identifiers and a
type `DB` of database states. -/
structure Queries (U DB : Type) where
  /-- The method `String` of `uuid.UUID`. -/
  uuidString : U → String
  /-- The function `uuid.Parse`. -/
  uuidParse : String → Except GoError U
  /-- The query `InsertURL`: the identifier of the new row, or an error, and
  the database after the query. -/
  InsertURL : DB → InsertURLParams → Except GoError U × DB
  /-- The query `SelectURL`. -/
  SelectURL : DB → U → Except GoError (Row U)

/-- The database keeps what is inserted: an identifier parses back from its
text, and a row selected by the identifier that `InsertURL` returned holds the
values inserted. -/
def Queries.Faithful {U DB : Type} (q : Queries U DB) : Prop :=
  (∀ id, q.uuidParse (q.uuidString id) = .ok id) ∧
  (∀ db p id db2, q.InsertURL db p = (.ok id, db2) →
    q.SelectURL db2 id =
      .ok ⟨id, p.Htmlversion, p.Pagetitle, p.Headingscount, p.Linkscount,
        p.Inaccessiblelinkscount, p.Haveloginform⟩)

/-- The error `sql.ErrNoRows`. -/
def sqlErrNoRows : GoError :=
  .lib "sql: no rows in result set"

/-- The method `URL.Create` of the repository, on the database `db`: its two
results and the database after the call. -/
def Create {U DB : Type} (q : Queries U DB) (db : DB) (HTMLVersion pageTitle
    headingsCount : String) (linksCount inaccessibleLinksCount : Int) (haveLoginForm : Bool) :
    (internal.URL × Option GoError) × DB :=
  match q.InsertURL db
      { Htmlversion := HTMLVersion
        Pagetitle := pageTitle
        Headingscount := headingsCount
        Linkscount := int32 linksCount
        Inaccessiblelinkscount := int32 inaccessibleLinksCount
        Haveloginform := haveLoginForm } with
  | (.error err, db2) =>
    ((internal.URL.zero, some (internal.WrapErrorf err .ErrorCodeUnknown "insert URL")), db2)
  | (.ok id, db2) =>
    (({ ID := q.uuidString id
        HTMLVersion := HTMLVersion
        PageTitle := pageTitle
        HeadingsCount := headingsCount
        LinksCount := linksCount
        InaccessibleLinksCount := inaccessibleLinksCount
        HaveLoginForm := haveLoginForm }, none), db2)

/-- The method `URL.Find` of the repository, on the database `db`. The
conversion `int(...)` of an `int32` keeps the value. -/
def Find {U DB : Type} (q : Queries U DB) (db : DB) (id : String) :
    internal.URL × Option GoError :=
  match q.uuidParse id with
  | .error err =>
    (internal.URL.zero, some (internal.WrapErrorf err .ErrorCodeInvalidArgument "invalid uuid"))
  | .ok val =>
    match q.SelectURL db val with
    | .error err =>
      if errorsIs err sqlErrNoRows = true then
        (internal.URL.zero, some (internal.WrapErrorf err .ErrorCodeNotFound "URL not found"))
      else
        (internal.URL.zero, some (internal.WrapErrorf err .ErrorCodeUnknown "select URL"))
    | .ok res =>
      ({ ID := q.uuidString res.ID
         HTMLVersion := res.HtmlVersion
         PageTitle := res.PageTitle
         HeadingsCount := res.HeadingsCount
         LinksCount := res.LinksCount
         InaccessibleLinksCount := res.InaccessibleLinksCount
         HaveLoginForm := res.HaveLoginForm }, none)

/-- The identifiers of the sample database: the texts of 36 characters. -/
abbrev SampleUUID : Type :=
  { s : String // s.length = 36 }

/-- The identifier that the sample database gives to a new row. -/
def sampleID : SampleUUID :=
  ⟨"44633fe3-b039-4fb3-a35f-a57fe3c906c7", by decide⟩

/-- A sample database: a list of rows, the newest first. An insert puts the
row at the head under `sampleID`; a select returns the first row with the
identifier asked for. -/
def sampleQueries : Queries SampleUUID (List (Row SampleUUID)) :=
  { uuidString := fun u => u.val
    uuidParse := fun s =>
      if h : s.length = 36 then .ok ⟨s, h⟩ else .error (.lib "invalid UUID length")
    InsertURL := fun db p =>
      (.ok sampleID,
        ⟨sampleID, p.Htmlversion, p.Pagetitle, p.Headingscount, p.Linkscount,
          p.Inaccessiblelinkscount, p.Haveloginform⟩ :: db)
    SelectURL := fun db id =>
      match db.find? (fun r => decide (r.ID = id)) with
      | some r => .ok r
      | none => .error sqlErrNoRows }

end postgresql

/-! ## The service and the repository together -/

/-- The test that a recorded call is a call of `repo.Create`. -/
def Call.isRepoCreate : Call → Bool
  | .repoCreate _ _ _ _ _ _ => true
  | _ => false

/-- The PostgreSQL repository on the empty sample database, as the
`URLRepository` of the service. -/
def postgresRepo : URLRepository :=
  ⟨fun HTMLVersion pageTitle headingsCount linksCount inaccessibleLinksCount haveLoginForm =>
    (postgresql.Create postgresql.sampleQueries [] HTMLVersion pageTitle headingsCount
      linksCount inaccessibleLinksCount haveLoginForm).1⟩

/-- A repository whose `Create` fails. -/
def failingRepo : URLRepository :=
  ⟨fun _ _ _ _ _ _ =>
    (internal.URL.zero,
      some (internal.WrapErrorf (.lib "connection refused") .ErrorCodeUnknown "insert URL"))⟩

/-- A world that fetches `noAnchorDoc`, a page without a title element, with
status 200 and stores through the given repository. -/
def noTitleWorld (repo : URLRepository) : World :=
  { httpGet := fun _ => .ok ⟨200, ""⟩
    NewDocumentFromReader := fun _ => .ok noAnchorDoc
    render := sampleRender
    order := doctypes
    schedule := [.advance 10, .timeout]
    repo := repo }

/-! ## The iterations of the collector loop -/

/-- The test that an event is a receive. -/
def Event.isReceive : Event → Bool
  | .receive _ => true
  | _ => false

/-- The number of outcomes received in a sequence of events. -/
def receives (es : List Event) : Nat :=
  es.countP Event.isReceive

/-- The number of times the timer branch is taken in a sequence of events. -/
def timeouts (es : List Event) : Nat :=
  es.count Event.timeout

/-- The number of values a probe can still send: two while its GET is under
way, as many as are pending afterwards. -/
def Probe.sendsLeft : Probe → Nat
  | .getting _ => 2
  | .sending pending => pending.length

/-- The number of values the probes can still send, together. -/
def sendsLeft : List Probe → Nat
  | [] => 0
  | p :: ps => p.sendsLeft + sendsLeft ps

/-! ## The rendering of the heading counts -/

/-- The line of the six heading counts: decimal numbers, two blanks between
the entries, three blanks before the last number. -/
def headingsLine (c1 c2 c3 c4 c5 c6 : Nat) : String :=
  "h1: " ++ toString c1 ++ "  h2: " ++ toString c2 ++ "  h3: " ++ toString c3 ++
    "  h4: " ++ toString c4 ++ "  h5: " ++ toString c5 ++ "  h6:   " ++ toString c6

/-- The number that a sequence of decimal digits denotes. -/
def digitsValue (cs : List Char) : Nat :=
  cs.foldl (fun acc c => acc * 10 + (c.toNat - 48)) 0

/-! ## The early returns of the service -/

/-- The call of `Search` ends at one of its first three returns: the GET
fails, the status is not 200, or the parse fails. -/
def FailsEarly (w : World) (URL : String) : Prop :=
  (∃ e, w.httpGet URL = .error e) ∨
  (∃ resp, w.httpGet URL = .ok resp ∧ resp.StatusCode ≠ 200) ∨
  (∃ resp e, w.httpGet URL = .ok resp ∧ w.NewDocumentFromReader resp.Body = .error e)

/-- A world with the fetch and the parse of `sampleWorld` and with another
renderer, iteration order, run of the probes and repository. -/
def otherWorld (fetch : Except GoError Response) (parse : Except GoError Document) : World :=
  { httpGet := fun _ => fetch
    NewDocumentFromReader := fun _ => parse
    render := fun _ => .error (.lib "html: cannot render an ErrorNode node")
    order := doctypes.reverse
    schedule := []
    repo := failingRepo }

/-! ## Two runs over the same content -/

/-- The end of `Search` after the call of `repo.Create`: what it returns for
the two results of `Create`. -/
def afterCreate (r : internal.URL × Option GoError) : internal.URL × Option GoError :=
  match r with
  | (_, some err) => (internal.URL.zero, some (.wrapped "repo create" err))
  | (info, none) => (info, none)

/-- At most one entry of the table has its signature in the text. -/
def AtMostOneSignature (html : String) : Prop :=
  ∀ e ∈ doctypes, ∀ f ∈ doctypes, OccursIn e.2 html → OccursIn f.2 html → e = f

/-- A page with the HTML 5 doctype, a title and no anchor. -/
def oneSignatureDoc : Document :=
  ⟨[.doctype "html",
    .element "html" [] [
      .element "head" [] [.element "title" [] [.text "T"]],
      .element "body" [] [.element "h1" [] [.text "hello"]]]]⟩

/-- A world that fetches `oneSignatureDoc` with status 200, with the given
iteration order and run of the probes. -/
def oneSignatureWorld (order : List (String × String)) (schedule : List Event) : World :=
  { httpGet := fun _ => .ok ⟨200, ""⟩
    NewDocumentFromReader := fun _ => .ok oneSignatureDoc
    render := sampleRender
    order := order
    schedule := schedule
    repo := echoRepo }

/-! ## Theorems -/

/-! ### Strings -/

theorem startsWith_iff (s p : List Char) :
    strings.startsWith s p = true ↔ p <+: s := by
  induction s generalizing p with
  | nil =>
    cases p with
    | nil => simp [strings.startsWith]
    | cons d p => simp [strings.startsWith]
  | cons c s ih =>
    cases p with
    | nil => simp [strings.startsWith]
    | cons d p =>
      simp only [strings.startsWith, Bool.and_eq_true, beq_iff_eq, ih, List.cons_prefix_cons]
      constructor
      · rintro ⟨h, hp⟩; exact ⟨h.symm, hp⟩
      · rintro ⟨h, hp⟩; exact ⟨h.symm, hp⟩

theorem containsChars_iff (s p : List Char) :
    strings.containsChars s p = true ↔ p <:+: s := by
  induction s with
  | nil =>
    simp only [strings.containsChars, startsWith_iff]
    constructor
    · intro h; exact h.isInfix
    · intro h
      have : p = [] := List.eq_nil_of_infix_nil h
      subst this; exact List.prefix_rfl
  | cons c s ih =>
    simp only [strings.containsChars, Bool.or_eq_true, startsWith_iff, ih]
    exact List.infix_cons_iff.symm

/-- `strings.Contains` decides substring occurrence. -/
theorem Contains_iff (s substr : String) :
    strings.Contains s substr = true ↔ OccursIn substr s :=
  containsChars_iff s.data substr.data

/-! ### The version detector -/

/-- The loop of `detectHTMLVersion` ends with the label of the last entry
visited whose signature is contained in the text, or with its start value. -/
theorem detect_foldl (html : String) (l : List (String × String)) (v : String) :
    l.foldl (detectStep html) v =
      ((l.reverse.find? (fun e => strings.Contains html e.2)).map Prod.fst).getD v := by
  induction l generalizing v with
  | nil => rfl
  | cons e l ih =>
    rw [List.foldl_cons, ih, List.reverse_cons, List.find?_append]
    cases hfind : l.reverse.find? (fun e => strings.Contains html e.2) with
    | some x => simp
    | none =>
      by_cases he : strings.Contains html e.2 = true
      · simp [detectStep, he, List.find?]
      · simp [detectStep, he, List.find?]

/-- No label of the table is the text `UNKNOWN`. -/
theorem doctypes_label_ne_unknown : ∀ e ∈ doctypes, e.1 ≠ "UNKNOWN" := by
  decide

/-- C1: for every text and every iteration order of the table,
`detectHTMLVersion` returns `UNKNOWN` exactly when no signature of the table
occurs in the text as a substring. -/
theorem detectHTMLVersion_unknown_iff (order : List (String × String))
    (horder : IterationOrder order) (html : String) :
    detectHTMLVersion order html = "UNKNOWN" ↔ ∀ e ∈ doctypes, ¬ OccursIn e.2 html := by
  unfold detectHTMLVersion
  rw [detect_foldl]
  cases hfind : order.reverse.find? (fun e => strings.Contains html e.2) with
  | none =>
    simp only [Option.map_none', Option.getD_none, true_iff]
    intro e he hocc
    have hmem : e ∈ order.reverse := List.mem_reverse.mpr (horder.mem_iff.mpr he)
    have := List.find?_eq_none.mp hfind e hmem
    exact this ((Contains_iff html e.2).mpr hocc)
  | some x =>
    simp only [Option.map_some', Option.getD_some]
    have hx : x ∈ doctypes :=
      horder.mem_iff.mp (List.mem_reverse.mp (List.mem_of_find?_eq_some hfind))
    have hp : strings.Contains html x.2 = true :=
      List.find?_some (p := fun e : String × String => strings.Contains html e.2) hfind
    constructor
    · intro h; exact absurd h (doctypes_label_ne_unknown x hx)
    · intro h; exact absurd ((Contains_iff html x.2).mp hp) (h x hx)

/-- C1 at the reversed table and a page without a doctype. -/
theorem detectHTMLVersion_unknown_iff_witness :
    IterationOrder doctypes.reverse ∧
      (detectHTMLVersion doctypes.reverse "<html><body></body></html>" = "UNKNOWN" ↔
        ∀ e ∈ doctypes, ¬ OccursIn e.2 "<html><body></body></html>") :=
  ⟨List.reverse_perm doctypes,
    detectHTMLVersion_unknown_iff doctypes.reverse (List.reverse_perm doctypes)
      "<html><body></body></html>"⟩

/-! ### The selectors on the tree -/

theorem tagSelector_element (tag d : String) (a : List Attribute) (cs anc : List Node) :
    tagSelector tag anc (.element d a cs) = (d == tag) :=
  rfl

mutual
/-- The traversal with a tag selector appends the elements with that tag. -/
theorem matchAllInto_tag (tag : String) :
    ∀ (n : Node) (anc st : List Node),
      matchAllInto (tagSelector tag) anc n st = st ++ elementsWithTagIn tag n
  | .element d a cs, anc, st => by
    rw [matchAllInto, matchAllIntoChildren_tag tag cs, elementsWithTagIn,
      tagSelector_element]
    by_cases h : d = tag <;> simp [h]
  | .text d, anc, st => by simp [matchAllInto, elementsWithTagIn, tagSelector]
  | .comment d, anc, st => by simp [matchAllInto, elementsWithTagIn, tagSelector]
  | .doctype d, anc, st => by simp [matchAllInto, elementsWithTagIn, tagSelector]
/-- The traversal of a sequence of children with a tag selector. -/
theorem matchAllIntoChildren_tag (tag : String) :
    ∀ (cs anc st : List Node),
      matchAllIntoChildren (tagSelector tag) anc cs st = st ++ elementsWithTagInList tag cs
  | [], anc, st => by simp [matchAllIntoChildren, elementsWithTagInList]
  | c :: cs, anc, st => by
    rw [matchAllIntoChildren, matchAllIntoChildren_tag tag cs, matchAllInto_tag tag c,
      elementsWithTagInList, List.append_assoc]
end

theorem findWithMatcher_tag (tag : String) (cs : List Node) :
    findWithMatcher (tagSelector tag) cs = elementsWithTagInList tag cs := by
  induction cs with
  | nil => rfl
  | cons c cs ih =>
    rw [findWithMatcher, ih, elementsWithTagInList]
    cases c with
    | element d a cs2 => simp [Node.isElement, MatchAll, matchAllInto_tag]
    | text d => simp [Node.isElement, elementsWithTagIn]
    | comment d => simp [Node.isElement, elementsWithTagIn]
    | doctype d => simp [Node.isElement, elementsWithTagIn]

/-- The selection of `Find` with a tag name holds the elements with that tag. -/
theorem Find_tag (query : Document) (tag : String) (h : tag ≠ "body a") :
    query.Find tag = elementsWithTag tag query := by
  simp [Document.Find, compileMatcher, h, findWithMatcher_tag, elementsWithTag]

mutual
theorem length_elementsWithTagIn (tag : String) :
    ∀ n : Node, (elementsWithTagIn tag n).length = countTagIn tag n
  | .element d a cs => by
    rw [elementsWithTagIn, countTagIn, List.length_append, length_elementsWithTagInList tag cs]
    by_cases h : d = tag <;> simp [h]
  | .text d => by simp [elementsWithTagIn, countTagIn]
  | .comment d => by simp [elementsWithTagIn, countTagIn]
  | .doctype d => by simp [elementsWithTagIn, countTagIn]
theorem length_elementsWithTagInList (tag : String) :
    ∀ cs : List Node, (elementsWithTagInList tag cs).length = countTagInList tag cs
  | [] => by simp [elementsWithTagInList, countTagInList]
  | c :: cs => by
    rw [elementsWithTagInList, countTagInList, List.length_append,
      length_elementsWithTagIn tag c, length_elementsWithTagInList tag cs]
end

/-- The length of the selection of `Find` with a tag name. -/
theorem Length_Find_tag (query : Document) (tag : String) (h : tag ≠ "body a") :
    Length (query.Find tag) = (countElements tag query : Int) := by
  rw [Find_tag query tag h, Length, elementsWithTag, length_elementsWithTagInList, countElements]

mutual
theorem elementsWithTagIn_isElement (tag : String) :
    ∀ n : Node, ∀ m ∈ elementsWithTagIn tag n, m.isElement = true
  | .element d a cs => by
    intro m hm
    rw [elementsWithTagIn, List.mem_append] at hm
    rcases hm with hm | hm
    · by_cases h : d = tag
      · simp only [h, if_true, List.mem_singleton] at hm
        subst hm; rfl
      · simp [h] at hm
    · exact elementsWithTagInList_isElement tag cs m hm
  | .text d => by simp [elementsWithTagIn]
  | .comment d => by simp [elementsWithTagIn]
  | .doctype d => by simp [elementsWithTagIn]
theorem elementsWithTagInList_isElement (tag : String) :
    ∀ cs : List Node, ∀ m ∈ elementsWithTagInList tag cs, m.isElement = true
  | [] => by simp [elementsWithTagInList]
  | c :: cs => by
    intro m hm
    rw [elementsWithTagInList, List.mem_append] at hm
    rcases hm with hm | hm
    · exact elementsWithTagIn_isElement tag c m hm
    · exact elementsWithTagInList_isElement tag cs m hm
end

theorem nodesText_append (xs ys : List Node) :
    nodesText (xs ++ ys) = nodesText xs ++ nodesText ys := by
  induction xs with
  | nil => simp [nodesText]
  | cons x xs ih => simp [nodesText, ih, String.append_assoc]

/-- The text of the children of a node that is not a text node is the text of
the node. -/
theorem nodesText_childNodes (n : Node) (h : n.isElement = true) :
    nodesText n.childNodes = nodeText n := by
  cases n with
  | element d a cs => simp [Node.childNodes, nodeText]
  | text d => simp [Node.isElement] at h
  | comment d => simp [Node.isElement] at h
  | doctype d => simp [Node.isElement] at h

/-- On a selection of elements, `Contents` followed by `Text` concatenates the
text contents of the elements. -/
theorem Text_Contents (sel : List Node) (h : ∀ m ∈ sel, m.isElement = true) :
    Text (Contents sel) = concat (sel.map textContent) := by
  induction sel with
  | nil => simp [Contents, Text, nodesText, concat]
  | cons n ns ih =>
    have hn := h n (List.mem_cons_self n ns)
    have hns : ∀ m ∈ ns, m.isElement = true := fun m hm => h m (List.mem_cons_of_mem n hm)
    have ih2 := ih hns
    simp only [Text] at ih2 ⊢
    simp only [Contents, nodesText_append, List.map_cons, concat, ih2,
      nodesText_childNodes n hn, textContent]

/-! ### The login-form detector -/

theorem containsAnyWord_iff (html : String) (words : List String) :
    containsAnyWord html words = true ↔ ∃ word ∈ words, OccursIn word html := by
  induction words with
  | nil => simp [containsAnyWord]
  | cons w ws ih =>
    rw [containsAnyWord]
    by_cases hw : strings.Contains html w = true
    · simp only [hw, if_true, true_iff]
      exact ⟨w, List.mem_cons_self w ws, (Contains_iff html w).mp hw⟩
    · simp only [hw, if_false, ih, List.mem_cons, Bool.false_eq_true]
      constructor
      · rintro ⟨x, hx, hocc⟩; exact ⟨x, Or.inr hx, hocc⟩
      · rintro ⟨x, hx | hx, hocc⟩
        · subst hx; exact absurd ((Contains_iff html x).mpr hocc) hw
        · exact ⟨x, hx, hocc⟩

/-- C4: `detectHaveLoginForm` is true exactly when the serialized document
contains one of the five words login, password, signup, signin, logout as a
substring; the comparison is case-sensitive, so the text `Login PASSWORD`
yields false. -/
theorem detectHaveLoginForm_iff (render : Node → Except GoError String) (query : Document) :
    (detectHaveLoginForm render query = true ↔
      ∃ word ∈ ["login", "password", "signup", "signin", "logout"],
        OccursIn word (query.Html render).1) ∧
    ((query.Html render).1 = "Login PASSWORD" → detectHaveLoginForm render query = false) := by
  constructor
  · exact containsAnyWord_iff (query.Html render).1 loginRelatedWords
  · intro h
    unfold detectHaveLoginForm
    rw [h]
    decide

/-- C4 at a page whose text is `Login PASSWORD`. -/
theorem detectHaveLoginForm_iff_witness :
    ((⟨[.text "Login PASSWORD"]⟩ : Document).Html sampleRender).1 = "Login PASSWORD" ∧
    detectHaveLoginForm sampleRender ⟨[.text "Login PASSWORD"]⟩ = false :=
  ⟨by decide, (detectHaveLoginForm_iff sampleRender ⟨[.text "Login PASSWORD"]⟩).2 (by decide)⟩

/-! ### The page title -/

/-- C5 as stated fails: on a page with the two title elements `A` and `B` the
function returns `AB`, the first title element has the text `A`. -/
theorem detectPageTitle_two_titles :
    detectPageTitle twoTitlesDoc = "AB" ∧ firstTitleText twoTitlesDoc = "A" ∧
      detectPageTitle twoTitlesDoc ≠ firstTitleText twoTitlesDoc := by
  decide

/-- C5, amended: `detectPageTitle` returns the text contents of all the title
elements of the document, concatenated in document order; that is the text
of the first title element followed by the texts of the later ones. It is the
empty string when the document has no title element, and the text content of
the title element when there is exactly one. -/
theorem detectPageTitle_eq_concat (query : Document) :
    detectPageTitle query = concat ((elementsWithTag "title" query).map textContent) ∧
    detectPageTitle query =
      firstTitleText query ++
        concat (((elementsWithTag "title" query).drop 1).map textContent) ∧
    (elementsWithTag "title" query = [] → detectPageTitle query = "") ∧
    (∀ t, elementsWithTag "title" query = [t] → detectPageTitle query = textContent t) := by
  have h1 : detectPageTitle query = concat ((elementsWithTag "title" query).map textContent) := by
    unfold detectPageTitle
    rw [Find_tag query "title" (by decide)]
    exact Text_Contents _ (elementsWithTagInList_isElement "title" query.children)
  refine ⟨h1, ?_, ?_, ?_⟩
  · rw [h1, firstTitleText]
    cases elementsWithTag "title" query with
    | nil => simp [concat]
    | cons t ts => simp [concat]
  · intro h
    rw [h1, h]; rfl
  · intro t h
    rw [h1, h]
    simp [concat]

/-- C5, amended, at a page without a title element and at a page with one. -/
theorem detectPageTitle_eq_concat_witness :
    (elementsWithTag "title" noAnchorDoc = [] ∧ detectPageTitle noAnchorDoc = "") ∧
    (elementsWithTag "title" threeH1Doc = [.element "title" [] [.text "T"]] ∧
      detectPageTitle threeH1Doc = "T") :=
  ⟨⟨rfl, (detectPageTitle_eq_concat noAnchorDoc).2.2.1 rfl⟩,
    ⟨rfl, (detectPageTitle_eq_concat threeH1Doc).2.2.2 (.element "title" [] [.text "T"]) rfl⟩⟩

/-! ### The heading counts -/

/-- C6: for each level the number that `detectHeadingsCountByLevel` writes is
the number of elements of that level anywhere in the document; a page with
three `h1` and no other heading gives 3, 0, 0, 0, 0, 0. -/
theorem detectHeadingsCountByLevel_counts (query : Document) :
    detectHeadingsCountByLevel query =
      "h1: " ++ sprintd (countElements "h1" query) ++
      "  h2: " ++ sprintd (countElements "h2" query) ++
      "  h3: " ++ sprintd (countElements "h3" query) ++
      "  h4: " ++ sprintd (countElements "h4" query) ++
      "  h5: " ++ sprintd (countElements "h5" query) ++
      "  h6:   " ++ sprintd (countElements "h6" query) ∧
    (countElements "h1" threeH1Doc = 3 ∧
      detectHeadingsCountByLevel threeH1Doc = "h1: 3  h2: 0  h3: 0  h4: 0  h5: 0  h6:   0") := by
  refine ⟨?_, by decide, by decide⟩
  unfold detectHeadingsCountByLevel
  simp only [Length_Find_tag query "h1" (by decide), Length_Find_tag query "h2" (by decide),
    Length_Find_tag query "h3" (by decide), Length_Find_tag query "h4" (by decide),
    Length_Find_tag query "h5" (by decide), Length_Find_tag query "h6" (by decide)]
  have e2 : ("  h2: " : String) = "  " ++ "h2: " := by decide
  have e3 : ("  h3: " : String) = "  " ++ "h3: " := by decide
  have e4 : ("  h4: " : String) = "  " ++ "h4: " := by decide
  have e5 : ("  h5: " : String) = "  " ++ "h5: " := by decide
  have e6 : ("  h6:   " : String) = "  " ++ ("h6:  " ++ " ") := by decide
  rw [e2, e3, e4, e5, e6]
  simp only [String.append_assoc]

/-! ### The links -/

/-- The selector compiled from `body a`. -/
theorem compileMatcher_body_a :
    compileMatcher "body a" = descendantSelector (tagSelector "body") (tagSelector "a") := by
  simp [compileMatcher]

theorem bodyA_element (d : String) (a : List Attribute) (cs anc : List Node) :
    descendantSelector (tagSelector "body") (tagSelector "a") anc (.element d a cs) =
      ((d == "a") && anyAncestor (tagSelector "body") anc) :=
  rfl

theorem anyAncestor_body_cons (d : String) (a : List Attribute) (cs anc : List Node) :
    anyAncestor (tagSelector "body") (.element d a cs :: anc) =
      ((d == "body") || anyAncestor (tagSelector "body") anc) :=
  rfl

mutual
/-- The traversal with the selector `body a` appends the anchors that have a
body element above them. -/
theorem matchAllInto_bodyA :
    ∀ (n : Node) (anc st : List Node),
      matchAllInto (descendantSelector (tagSelector "body") (tagSelector "a")) anc n st =
        st ++ anchorsBelow (anyAncestor (tagSelector "body") anc) n
  | .element d a cs, anc, st => by
    rw [matchAllInto, matchAllIntoChildren_bodyA cs, anchorsBelow, bodyA_element,
      anyAncestor_body_cons]
    have hflag : ((d == "body") || anyAncestor (tagSelector "body") anc) =
        (anyAncestor (tagSelector "body") anc || decide (d = "body")) := by
      rw [Bool.or_comm]; congr 1
    rw [hflag]
    by_cases hu : anyAncestor (tagSelector "body") anc = true <;>
      by_cases hd : d = "a" <;> simp [hu, hd]
  | .text d, anc, st => by
    simp [matchAllInto, anchorsBelow, descendantSelector, tagSelector]
  | .comment d, anc, st => by
    simp [matchAllInto, anchorsBelow, descendantSelector, tagSelector]
  | .doctype d, anc, st => by
    simp [matchAllInto, anchorsBelow, descendantSelector, tagSelector]
/-- The traversal of a sequence of children with the selector `body a`. -/
theorem matchAllIntoChildren_bodyA :
    ∀ (cs anc st : List Node),
      matchAllIntoChildren (descendantSelector (tagSelector "body") (tagSelector "a")) anc cs st =
        st ++ anchorsBelowList (anyAncestor (tagSelector "body") anc) cs
  | [], anc, st => by simp [matchAllIntoChildren, anchorsBelowList]
  | c :: cs, anc, st => by
    rw [matchAllIntoChildren, matchAllIntoChildren_bodyA cs, matchAllInto_bodyA c,
      anchorsBelowList, List.append_assoc]
end

theorem findWithMatcher_bodyA (cs : List Node) :
    findWithMatcher (descendantSelector (tagSelector "body") (tagSelector "a")) cs =
      anchorsBelowList false cs := by
  induction cs with
  | nil => rfl
  | cons c cs ih =>
    rw [findWithMatcher, ih, anchorsBelowList]
    cases c with
    | element d a cs2 => simp [Node.isElement, MatchAll, matchAllInto_bodyA, anyAncestor]
    | text d => simp [Node.isElement, anchorsBelow]
    | comment d => simp [Node.isElement, anchorsBelow]
    | doctype d => simp [Node.isElement, anchorsBelow]

/-- The selection of `Find("body a")` holds the anchors under a body element. -/
theorem Find_bodyA (query : Document) :
    query.Find "body a" = anchorsUnderBody query := by
  rw [Document.Find, compileMatcher_body_a, findWithMatcher_bodyA, anchorsUnderBody]

theorem Attr_href (item : Node) : (Attr item "href").1 = hrefOrEmpty item := by
  cases item with
  | element d attrs cs =>
    simp only [Attr, getAttributeValue, hrefOrEmpty, attributesOf]
    have hfilter : List.filter (fun a : Attribute => decide (a.Key = "href")) attrs =
        List.filter (fun a : Attribute => a.Key == "href") attrs := by
      congr 1
    rw [hfilter]
    have hhead := List.filter_head? (fun a : Attribute => a.Key == "href") attrs
    cases hf : List.filter (fun a : Attribute => a.Key == "href") attrs with
    | nil => rw [hf] at hhead; simp at hhead; simp [← hhead]
    | cons x xs => rw [hf] at hhead; simp at hhead; simp [← hhead]
  | text d => rfl
  | comment d => rfl
  | doctype d => rfl

/-- The number of links equals the length of the link sequence. -/
theorem detectLinks_eq_length (query : Document) :
    detectLinks query = ((extractLinks query).length : Int) := by
  simp [detectLinks, extractLinks, Length]

/-- C7: the link sequence has one entry per anchor element below a body
element, in document order, holding the value of its `href` attribute or the
empty string when it has none, duplicates kept; `detectLinks` returns the
length of that sequence. -/
theorem extractLinks_eq (query : Document) :
    extractLinks query = (anchorsUnderBody query).map hrefOrEmpty ∧
    detectLinks query = ((extractLinks query).length : Int) ∧
    (extractLinks anchorsDoc = ["/x", "", "/x"] ∧ detectLinks anchorsDoc = 3) := by
  refine ⟨?_, detectLinks_eq_length query, by decide, by decide⟩
  rw [extractLinks, Find_bodyA]
  exact List.map_congr_left (fun item _ => Attr_href item)

/-! ### The collector -/

theorem falsesLeft_set (ps : List Probe) (i : Nat) (p q : Probe) (h : ps[i]? = some p) :
    falsesLeft (ps.set i q) + p.falsesLeft = falsesLeft ps + q.falsesLeft := by
  induction ps generalizing i with
  | nil => simp at h
  | cons x xs ih =>
    cases i with
    | zero =>
      simp only [List.getElem?_cons_zero, Option.some.injEq] at h
      subst h
      simp only [List.set_cons_zero, falsesLeft]
      omega
    | succ j =>
      simp only [List.getElem?_cons_succ] at h
      have := ih j h
      simp only [List.set_cons_succ, falsesLeft]
      omega

theorem falsesLeft_isAccessible (failed : Bool) :
    (Probe.sending (isAccessible failed)).falsesLeft ≤ 1 := by
  cases failed <;> decide

theorem falsesLeft_launch (links : List String) :
    falsesLeft (links.map Probe.getting) = links.length := by
  induction links with
  | nil => rfl
  | cons l ls ih => simp only [List.map_cons, falsesLeft, ih, Probe.falsesLeft, List.length_cons]; omega

theorem CollectorInv_launch (links : List String) :
    CollectorInv links.length (launch links) := by
  refine ⟨le_refl _, ?_, ?_⟩
  · simp [launch, falsesLeft_launch]
  · intro c hc; simp [launch] at hc

/-- Every event keeps the invariant. -/
theorem CollectorInv_step (n : Nat) (s t : CollectorState) (e : Event)
    (hinv : CollectorInv n s) (hstep : step s e = some t) : CollectorInv n t := by
  obtain ⟨h0, hle, hret⟩ := hinv
  cases e with
  | advance ms =>
    simp only [step, Option.some.injEq] at hstep
    subst hstep
    exact ⟨h0, hle, hret⟩
  | getDone i failed =>
    simp only [step] at hstep
    split at hstep
    · rename_i url hp
      simp only [Option.some.injEq] at hstep
      subst hstep
      have hset := falsesLeft_set s.probes i _ (Probe.sending (isAccessible failed)) hp
      have hacc := falsesLeft_isAccessible failed
      simp only [Probe.falsesLeft] at hset hacc
      refine ⟨h0, ?_, hret⟩
      simp only [Probe.falsesLeft]
      omega
    · simp at hstep
  | receive i =>
    simp only [step] at hstep
    split at hstep
    · rename_i v rest hr hp
      simp only [Option.some.injEq] at hstep
      subst hstep
      have hset := falsesLeft_set s.probes i _ (Probe.sending rest) hp
      simp only [Probe.falsesLeft] at hset
      cases v with
      | false =>
        simp only [List.count_cons_self] at hset
        refine ⟨?_, ?_, ?_⟩
        · simp only [if_true]; omega
        · simp only [if_true]; omega
        · intro c hc; exact hret c (by simpa using hc)
      | true =>
        have hcount : List.count false (true :: rest) = List.count false rest := by
          simp
        rw [hcount] at hset
        refine ⟨?_, ?_, ?_⟩
        · simpa using h0
        · simp only [Bool.true_eq_false, if_false]; omega
        · intro c hc; exact hret c (by simpa using hc)
    · simp at hstep
  | timeout =>
    simp only [step] at hstep
    split at hstep
    · split at hstep
      · simp only [Option.some.injEq] at hstep
        subst hstep
        refine ⟨h0, hle, ?_⟩
        intro c hc
        simp only [Option.some.injEq] at hc
        subst hc
        constructor
        · exact h0
        · have : (0 : Int) ≤ (falsesLeft s.probes : Int) := Int.ofNat_nonneg _
          omega
      · simp at hstep
    · simp at hstep

theorem CollectorInv_run (n : Nat) (schedule : List Event) (s : CollectorState)
    (hinv : CollectorInv n s) : CollectorInv n (run s schedule) := by
  induction schedule generalizing s with
  | nil => exact hinv
  | cons e es ih =>
    rw [run]
    apply ih
    cases hstep : step s e with
    | none => simpa using hinv
    | some t => simpa using CollectorInv_step n s t e hinv hstep

theorem finish_bounds (n : Nat) (s : CollectorState) (hinv : CollectorInv n s) :
    0 ≤ finish s ∧ finish s ≤ (n : Int) := by
  obtain ⟨h0, hle, hret⟩ := hinv
  unfold finish
  cases hr : s.returned with
  | some c => exact hret c hr
  | none =>
    have : (0 : Int) ≤ (falsesLeft s.probes : Int) := Int.ofNat_nonneg _
    constructor
    · exact h0
    · show s.inaccessibleLinksCount ≤ (n : Int)
      omega

/-- The count lies between 0 and the number of links, along every run. -/
theorem detectInaccessibleLinksCount_bounds (query : Document) (schedule : List Event) :
    0 ≤ detectInaccessibleLinksCount query schedule ∧
      detectInaccessibleLinksCount query schedule ≤ ((extractLinks query).length : Int) :=
  finish_bounds _ _ (CollectorInv_run _ schedule _ (CollectorInv_launch (extractLinks query)))

/-- C2: for every document and every run of the probes and the collector, the
count returned by `detectInaccessibleLinksCount` is at least 0 and at most the
number of links, which is the value of `detectLinks` on the same document. -/
theorem detectInaccessibleLinksCount_le_links (query : Document) (schedule : List Event) :
    0 ≤ detectInaccessibleLinksCount query schedule ∧
      detectInaccessibleLinksCount query schedule ≤ detectLinks query ∧
      detectLinks query = ((extractLinks query).length : Int) := by
  have h := detectInaccessibleLinksCount_bounds query schedule
  have hl := detectLinks_eq_length query
  exact ⟨h.1, by rw [hl]; exact h.2, hl⟩

/-- C3 fails on the code: a probe whose `http.Get` fails sends two values,
`false` and then `true`, and the collector can receive both. -/
theorem isAccessible_failed_sends_two :
    isAccessible true = [false, true] ∧
    (isAccessible true).length = 2 ∧
    ((step (launch ["https://unreachable.invalid"]) (.getDone 0 true)).bind
        (fun s1 => (step s1 (.receive 0)).bind (fun s2 => step s2 (.receive 0)))) =
      some { probes := [.sending []], inaccessibleLinksCount := 1, now := 0, timerStart := 0,
             returned := none } := by
  decide

/-- C10: on a document without an anchor under a body element the number of
links is 0 and `detectInaccessibleLinksCount` returns 0 along every run. -/
theorem detectInaccessibleLinksCount_no_links (query : Document)
    (h : anchorsUnderBody query = []) :
    detectLinks query = 0 ∧ ∀ schedule, detectInaccessibleLinksCount query schedule = 0 := by
  have hlinks : extractLinks query = [] := by
    rw [extractLinks, Find_bodyA, h]; rfl
  refine ⟨by rw [detectLinks_eq_length, hlinks]; rfl, ?_⟩
  intro schedule
  have hb := detectInaccessibleLinksCount_bounds query schedule
  rw [hlinks] at hb
  simp only [List.length_nil, Nat.cast_zero] at hb
  omega

/-- C10 at a page without anchors, with a run that waits for the timer. -/
theorem detectInaccessibleLinksCount_no_links_witness :
    anchorsUnderBody noAnchorDoc = [] ∧
      detectInaccessibleLinksCount noAnchorDoc [.advance 10, .timeout] = 0 :=
  ⟨rfl, (detectInaccessibleLinksCount_no_links noAnchorDoc rfl).2 [.advance 10, .timeout]⟩

/-! ### The service -/

theorem Search_fetch_error (w : World) (URL : String) (e : GoError)
    (h : w.httpGet URL = .error e) :
    Search w URL = ⟨internal.URL.zero, some e, [.httpGet URL]⟩ := by
  simp [Search, h]

theorem Search_bad_status (w : World) (URL : String) (resp : Response)
    (h : w.httpGet URL = .ok resp) (hs : resp.StatusCode ≠ 200) :
    Search w URL =
      ⟨internal.URL.zero, some (.errorsNew "Error Retrieving Document"),
        [.httpGet URL, .bodyClose]⟩ := by
  simp [Search, h, hs]

theorem Search_parse_error (w : World) (URL : String) (resp : Response) (e : GoError)
    (h : w.httpGet URL = .ok resp) (hs : resp.StatusCode = 200)
    (hp : w.NewDocumentFromReader resp.Body = .error e) :
    Search w URL =
      ⟨internal.URL.zero, some (.wrapped "NewDocumentFromReader" e),
        [.httpGet URL, .newDocumentFromReader, .bodyClose]⟩ := by
  simp [Search, h, hs, hp]

/-- The record returned by `Search` is the zero value unless the error is nil. -/
theorem Search_zero_or_nil (w : World) (URL : String) :
    (Search w URL).url = internal.URL.zero ∨ (Search w URL).err = none := by
  cases hget : w.httpGet URL with
  | error e => left; rw [Search_fetch_error w URL e hget]
  | ok resp =>
    by_cases hs : resp.StatusCode = 200
    · cases hp : w.NewDocumentFromReader resp.Body with
      | error e => left; rw [Search_parse_error w URL resp e hget hs hp]
      | ok doc =>
        cases hh : doc.Html w.render with
        | mk html herr =>
          cases herr with
          | some e => left; simp [Search, hget, hs, hp, hh]
          | none =>
            simp only [Search, hget, hs, hp, hh, ne_eq, not_true_eq_false, if_false]
            split
            · left; rfl
            · right; rfl
    · left; rw [Search_bad_status w URL resp hget hs]

/-- C8: `Search` returns a nil error only if the GET produced a response with
status 200; when the GET fails, and when the response has another status, the
error of `Search` is not nil. -/
theorem Search_nil_error_only_200 (w : World) (URL : String) :
    ((Search w URL).err = none →
      ∃ resp, w.httpGet URL = .ok resp ∧ resp.StatusCode = 200) ∧
    (∀ e, w.httpGet URL = .error e → (Search w URL).err ≠ none) ∧
    (∀ resp, w.httpGet URL = .ok resp → resp.StatusCode ≠ 200 →
      (Search w URL).err ≠ none) := by
  have hfetch : ∀ e, w.httpGet URL = .error e → (Search w URL).err ≠ none := by
    intro e h; rw [Search_fetch_error w URL e h]; simp
  have hstatus : ∀ resp, w.httpGet URL = .ok resp → resp.StatusCode ≠ 200 →
      (Search w URL).err ≠ none := by
    intro resp h hs; rw [Search_bad_status w URL resp h hs]; simp
  refine ⟨?_, hfetch, hstatus⟩
  intro hnil
  cases h : w.httpGet URL with
  | error e => exact absurd hnil (hfetch e h)
  | ok resp =>
    by_cases hs : resp.StatusCode = 200
    · exact ⟨resp, rfl, hs⟩
    · exact absurd hnil (hstatus resp h hs)

/-- C8 at a failed GET and at responses with status 404, 201 and 500. -/
theorem Search_nil_error_only_200_witness :
    (Search (sampleWorld (.error (.lib "dial tcp: no such host")) (.ok noAnchorDoc))
        "http://a.test").err ≠ none ∧
    (Search (sampleWorld (.ok ⟨404, ""⟩) (.ok noAnchorDoc)) "http://a.test").err ≠ none ∧
    (Search (sampleWorld (.ok ⟨201, ""⟩) (.ok noAnchorDoc)) "http://a.test").err ≠ none ∧
    (Search (sampleWorld (.ok ⟨500, ""⟩) (.ok noAnchorDoc)) "http://a.test").err ≠ none ∧
    (Search (sampleWorld (.ok ⟨200, ""⟩) (.ok noAnchorDoc)) "http://a.test").err = none ∧
    (∃ resp, (sampleWorld (.ok ⟨200, ""⟩) (.ok noAnchorDoc)).httpGet "http://a.test" = .ok resp ∧
      resp.StatusCode = 200) :=
  ⟨(Search_nil_error_only_200 _ "http://a.test").2.1 (.lib "dial tcp: no such host") rfl,
    (Search_nil_error_only_200 _ "http://a.test").2.2 ⟨404, ""⟩ rfl (by decide),
    (Search_nil_error_only_200 _ "http://a.test").2.2 ⟨201, ""⟩ rfl (by decide),
    (Search_nil_error_only_200 _ "http://a.test").2.2 ⟨500, ""⟩ rfl (by decide),
    rfl,
    (Search_nil_error_only_200 (sampleWorld (.ok ⟨200, ""⟩) (.ok noAnchorDoc))
      "http://a.test").1 rfl⟩

/-- At an early return the result of `Search` is fixed by the fetch and the
parse, and it holds no call of a detector, of a probe or of the repository. -/
theorem Search_early (w : World) (URL : String) (h : FailsEarly w URL) :
    (∀ w2 : World, w2.httpGet = w.httpGet →
      w2.NewDocumentFromReader = w.NewDocumentFromReader → Search w2 URL = Search w URL) ∧
    (∀ c ∈ (Search w URL).calls, c.isDownstream = false) := by
  rcases h with ⟨e, hget⟩ | ⟨resp, hget, hs⟩ | ⟨resp, e, hget, hp⟩
  · constructor
    · intro w2 h1 _
      rw [Search_fetch_error w URL e hget, Search_fetch_error w2 URL e (by rw [h1]; exact hget)]
    · intro c hc
      rw [Search_fetch_error w URL e hget] at hc
      simp only [List.mem_singleton] at hc
      subst hc; rfl
  · constructor
    · intro w2 h1 _
      rw [Search_bad_status w URL resp hget hs,
        Search_bad_status w2 URL resp (by rw [h1]; exact hget) hs]
    · intro c hc
      rw [Search_bad_status w URL resp hget hs] at hc
      simp only [List.mem_cons, List.mem_singleton, List.not_mem_nil, or_false] at hc
      rcases hc with hc | hc <;> subst hc <;> rfl
  · by_cases hs : resp.StatusCode = 200
    · constructor
      · intro w2 h1 h2
        rw [Search_parse_error w URL resp e hget hs hp,
          Search_parse_error w2 URL resp e (by rw [h1]; exact hget) hs (by rw [h2]; exact hp)]
      · intro c hc
        rw [Search_parse_error w URL resp e hget hs hp] at hc
        simp only [List.mem_cons, List.mem_singleton, List.not_mem_nil, or_false] at hc
        rcases hc with hc | hc | hc <;> subst hc <;> rfl
    · constructor
      · intro w2 h1 _
        rw [Search_bad_status w URL resp hget hs,
          Search_bad_status w2 URL resp (by rw [h1]; exact hget) hs]
      · intro c hc
        rw [Search_bad_status w URL resp hget hs] at hc
        simp only [List.mem_cons, List.mem_singleton, List.not_mem_nil, or_false] at hc
        rcases hc with hc | hc <;> subst hc <;> rfl

/-- C9: whenever `Search` returns an error, the record it returns is the zero
value. When the GET fails, the status is not 200 or the parse fails, the whole
result of `Search` is the zero record, the error of that step and the calls
made up to it: no detector, no probe and no call of `repo.Create` is among
them, and the result is the same for every renderer, iteration order, run of
the probes and repository. -/
theorem Search_error_zero_value (w : World) (URL : String) :
    ((Search w URL).err ≠ none → (Search w URL).url = internal.URL.zero) ∧
    (∀ e, w.httpGet URL = .error e →
      Search w URL = ⟨internal.URL.zero, some e, [.httpGet URL]⟩) ∧
    (∀ resp, w.httpGet URL = .ok resp → resp.StatusCode ≠ 200 →
      Search w URL =
        ⟨internal.URL.zero, some (.errorsNew "Error Retrieving Document"),
          [.httpGet URL, .bodyClose]⟩) ∧
    (∀ resp e, w.httpGet URL = .ok resp → resp.StatusCode = 200 →
      w.NewDocumentFromReader resp.Body = .error e →
      Search w URL =
        ⟨internal.URL.zero, some (.wrapped "NewDocumentFromReader" e),
          [.httpGet URL, .newDocumentFromReader, .bodyClose]⟩) ∧
    (FailsEarly w URL →
      (∀ c ∈ (Search w URL).calls, c.isDownstream = false) ∧
      (Search w URL).err ≠ none ∧
      ∀ render order schedule repo,
        Search { w with render := render, order := order, schedule := schedule, repo := repo }
          URL = Search w URL) := by
  refine ⟨?_, Search_fetch_error w URL, Search_bad_status w URL, ?_, ?_⟩
  · intro herr
    rcases Search_zero_or_nil w URL with h | h
    · exact h
    · exact absurd h herr
  · intro resp e hget hs hp
    exact Search_parse_error w URL resp e hget hs hp
  · intro hearly
    have h := Search_early w URL hearly
    refine ⟨h.2, ?_, ?_⟩
    · rcases hearly with ⟨e, hget⟩ | ⟨resp, hget, hs⟩ | ⟨resp, e, hget, hp⟩
      · rw [Search_fetch_error w URL e hget]; simp
      · rw [Search_bad_status w URL resp hget hs]; simp
      · by_cases hs : resp.StatusCode = 200
        · rw [Search_parse_error w URL resp e hget hs hp]; simp
        · rw [Search_bad_status w URL resp hget hs]; simp
    · intro render order schedule repo
      exact h.1 _ rfl rfl

/-- C9 at a failed GET, at a response with status 404 and at a failed parse,
each with two renderers, iteration orders, runs of the probes and
repositories. -/
theorem Search_error_zero_value_witness :
    (Search (sampleWorld (.ok ⟨404, ""⟩) (.ok noAnchorDoc)) "http://a.test").url =
      internal.URL.zero ∧
    Search (sampleWorld (.error (.lib "dial tcp: no such host")) (.ok noAnchorDoc))
        "http://a.test" =
      ⟨internal.URL.zero, some (.lib "dial tcp: no such host"), [.httpGet "http://a.test"]⟩ ∧
    Search (sampleWorld (.ok ⟨404, ""⟩) (.ok noAnchorDoc)) "http://a.test" =
      ⟨internal.URL.zero, some (.errorsNew "Error Retrieving Document"),
        [.httpGet "http://a.test", .bodyClose]⟩ ∧
    Search (sampleWorld (.ok ⟨200, ""⟩) (.error (.lib "unexpected EOF"))) "http://a.test" =
      ⟨internal.URL.zero, some (.wrapped "NewDocumentFromReader" (.lib "unexpected EOF")),
        [.httpGet "http://a.test", .newDocumentFromReader, .bodyClose]⟩ ∧
    FailsEarly (sampleWorld (.ok ⟨404, ""⟩) (.ok noAnchorDoc)) "http://a.test" ∧
    Search (otherWorld (.ok ⟨404, ""⟩) (.ok noAnchorDoc)) "http://a.test" =
      Search (sampleWorld (.ok ⟨404, ""⟩) (.ok noAnchorDoc)) "http://a.test" :=
  ⟨(Search_error_zero_value _ "http://a.test").1 (by decide),
    (Search_error_zero_value _ "http://a.test").2.1 (.lib "dial tcp: no such host") rfl,
    (Search_error_zero_value _ "http://a.test").2.2.1 ⟨404, ""⟩ rfl (by decide),
    (Search_error_zero_value _ "http://a.test").2.2.2.1 ⟨200, ""⟩ (.lib "unexpected EOF")
      rfl rfl rfl,
    Or.inr (Or.inl ⟨⟨404, ""⟩, rfl, by decide⟩),
    ((Search_error_zero_value (sampleWorld (.ok ⟨404, ""⟩) (.ok noAnchorDoc))
        "http://a.test").2.2.2.2 (Or.inr (Or.inl ⟨⟨404, ""⟩, rfl, by decide⟩))).2.2
      (fun _ => .error (.lib "html: cannot render an ErrorNode node")) doctypes.reverse []
      failingRepo⟩

/-! ### Executions: the timer branch -/

/-- An event never turns the clock back and never takes a returned value away. -/
theorem step_now_returned (s t : CollectorState) (e : Event) (h : step s e = some t) :
    s.now ≤ t.now ∧ ∀ c, s.returned = some c → t.returned = some c := by
  cases e with
  | advance ms =>
    simp only [step, Option.some.injEq] at h
    subst h
    exact ⟨Nat.le_add_right _ _, fun c hc => hc⟩
  | getDone i failed =>
    simp only [step] at h
    split at h
    · simp only [Option.some.injEq] at h
      subst h
      exact ⟨le_refl _, fun c hc => hc⟩
    · simp at h
  | receive i =>
    simp only [step] at h
    split at h
    · rename_i v rest hr hp
      simp only [Option.some.injEq] at h
      subst h
      exact ⟨le_refl _, fun c hc => by simp [hr] at hc⟩
    · simp at h
  | timeout =>
    simp only [step] at h
    split at h
    · rename_i hr
      split at h
      · simp only [Option.some.injEq] at h
        subst h
        exact ⟨le_refl _, fun c hc => by simp [hr] at hc⟩
      · simp at h
    · simp at h

theorem steps_now_returned (es : List Event) (s t : CollectorState)
    (h : steps s es = some t) :
    s.now ≤ t.now ∧ ∀ c, s.returned = some c → t.returned = some c := by
  induction es generalizing s with
  | nil =>
    simp only [steps, Option.some.injEq] at h
    subst h
    exact ⟨le_refl _, fun c hc => hc⟩
  | cons e es ih =>
    simp only [steps] at h
    cases hstep : step s e with
    | none => simp [hstep] at h
    | some u =>
      simp only [hstep, Option.some_bind] at h
      have h1 := step_now_returned s u e hstep
      have h2 := ih u h
      exact ⟨le_trans h1.1 h2.1, fun c hc => h2.2 c (h1.2 c hc)⟩

/-- Without probes the loop returns only through the timer branch, not before
the timer has run out, and with the count it had. -/
theorem steps_no_probe (es : List Event) (s t : CollectorState)
    (hp : s.probes = []) (hr : s.returned = none) (h : steps s es = some t)
    (hret : t.returned ≠ none) :
    Event.timeout ∈ es ∧ s.timerStart + timeoutMs ≤ t.now ∧
      t.returned = some s.inaccessibleLinksCount := by
  induction es generalizing s with
  | nil =>
    simp only [steps, Option.some.injEq] at h
    subst h
    exact absurd hr hret
  | cons e es ih =>
    simp only [steps] at h
    cases hstep : step s e with
    | none => simp [hstep] at h
    | some u =>
      simp only [hstep, Option.some_bind] at h
      cases e with
      | advance ms =>
        simp only [step, Option.some.injEq] at hstep
        subst hstep
        have := ih { s with now := s.now + ms } hp hr h
        exact ⟨List.mem_cons_of_mem _ this.1, this.2.1, this.2.2⟩
      | getDone i failed =>
        simp [step, hp] at hstep
      | receive i =>
        simp [step, hp] at hstep
      | timeout =>
        simp only [step, hr] at hstep
        split at hstep
        · rename_i hle
          simp only [Option.some.injEq] at hstep
          subst hstep
          have hu := steps_now_returned es _ t h
          refine ⟨List.mem_cons_self _ _, le_trans hle hu.1, hu.2 _ rfl⟩
        · simp at hstep

/-- An execution is a run in which no event is skipped. -/
theorem run_of_steps (es : List Event) (s t : CollectorState) (h : steps s es = some t) :
    run s es = t := by
  induction es generalizing s with
  | nil => simpa [steps, run] using h
  | cons e es ih =>
    simp only [steps] at h
    cases hstep : step s e with
    | none => simp [hstep] at h
    | some u =>
      simp only [hstep, Option.some_bind] at h
      simp only [run, hstep, Option.getD_some]
      exact ih u h

theorem steps_append (es fs : List Event) (s : CollectorState) :
    steps s (es ++ fs) = (steps s es).bind (fun t => steps t fs) := by
  induction es generalizing s with
  | nil => simp [steps]
  | cons e es ih =>
    simp only [List.cons_append, steps]
    cases step s e with
    | none => simp
    | some u => simp [ih]

/-- C11 as stated fails: with no link the timer branch cannot be taken at the
start, the loop has not returned before any event, and no execution returns
without the timer branch. -/
theorem no_links_no_immediate_return :
    step (launch []) .timeout = none ∧
    (run (launch []) []).returned = none ∧
    ¬ ∃ es t, steps (launch []) es = some t ∧ t.returned ≠ none ∧ Event.timeout ∉ es := by
  refine ⟨by decide, by decide, ?_⟩
  rintro ⟨es, t, h, hret, hno⟩
  exact hno (steps_no_probe es (launch []) t rfl rfl h hret).1

/-- C11, amended: when no link was extracted, every execution of
`detectInaccessibleLinksCount` that returns has taken the timer branch, not
earlier than 10 ms after the loop began, and returns 0; waiting 10 ms and
taking the timer branch is such an execution. -/
theorem no_links_returns_by_timer (query : Document) (h : extractLinks query = []) :
    (∀ es t, steps (launch (extractLinks query)) es = some t → t.returned ≠ none →
      Event.timeout ∈ es ∧ timeoutMs ≤ t.now ∧ t.returned = some 0) ∧
    (∃ t, steps (launch (extractLinks query)) [.advance timeoutMs, .timeout] = some t ∧
      t.returned = some 0 ∧ t.now = timeoutMs) := by
  rw [h]
  constructor
  · intro es t hsteps hret
    have := steps_no_probe es (launch []) t rfl rfl hsteps hret
    refine ⟨this.1, ?_, this.2.2⟩
    simpa [launch] using this.2.1
  · exact ⟨{ probes := [], inaccessibleLinksCount := 0, now := timeoutMs, timerStart := 0,
              returned := some 0 }, by decide, rfl, rfl⟩

/-- C11, amended, at a page without anchors. -/
theorem no_links_returns_by_timer_witness :
    extractLinks noAnchorDoc = [] ∧
    steps (launch (extractLinks noAnchorDoc)) [.advance 4, .advance 6, .timeout] =
      some { probes := [], inaccessibleLinksCount := 0, now := 10, timerStart := 0,
             returned := some 0 } ∧
    Event.timeout ∈ [Event.advance 4, .advance 6, .timeout] :=
  ⟨by decide, by decide,
    ((no_links_returns_by_timer noAnchorDoc (by decide)).1 [.advance 4, .advance 6, .timeout]
      { probes := [], inaccessibleLinksCount := 0, now := 10, timerStart := 0,
        returned := some 0 }
      (by decide) (by decide)).1⟩

/-! ### Executions: the budget of the timer -/

/-- One event on the clock and on the timer of the pending `select`. -/
theorem step_timer (s u : CollectorState) (e : Event) (hle : s.timerStart ≤ s.now)
    (h : step s e = some u) :
    u.timerStart ≤ u.now ∧ u.now = s.now + elapsed [e] ∧
      u.now - u.timerStart = sinceStep (s.now - s.timerStart) e := by
  cases e with
  | advance ms =>
    simp only [step, Option.some.injEq] at h
    subst h
    refine ⟨?_, ?_, ?_⟩ <;> simp [elapsed, sinceStep] <;> omega
  | getDone i failed =>
    simp only [step] at h
    split at h
    · simp only [Option.some.injEq] at h
      subst h
      exact ⟨hle, by simp [elapsed], by simp [sinceStep]⟩
    · simp at h
  | receive i =>
    simp only [step] at h
    split at h
    · simp only [Option.some.injEq] at h
      subst h
      exact ⟨by simp, by simp [elapsed], by simp [sinceStep]⟩
    · simp at h
  | timeout =>
    simp only [step] at h
    split at h
    · split at h
      · simp only [Option.some.injEq] at h
        subst h
        exact ⟨hle, by simp [elapsed], by simp [sinceStep]⟩
      · simp at h
    · simp at h

theorem elapsed_cons (e : Event) (es : List Event) :
    elapsed (e :: es) = elapsed [e] + elapsed es := by
  cases e <;> simp [elapsed]

theorem steps_timer (es : List Event) (s t : CollectorState) (hle : s.timerStart ≤ s.now)
    (h : steps s es = some t) :
    t.timerStart ≤ t.now ∧ t.now = s.now + elapsed es ∧
      t.now - t.timerStart = es.foldl sinceStep (s.now - s.timerStart) := by
  induction es generalizing s with
  | nil =>
    simp only [steps, Option.some.injEq] at h
    subst h
    simp [elapsed, hle]
  | cons e es ih =>
    simp only [steps] at h
    cases hstep : step s e with
    | none => simp [hstep] at h
    | some u =>
      simp only [hstep, Option.some_bind] at h
      have h1 := step_timer s u e hle hstep
      have h2 := ih u h1.1 h
      refine ⟨h2.1, ?_, ?_⟩
      · rw [h2.2.1, h1.2.1, elapsed_cons e es]; omega
      · rw [h2.2.2, h1.2.2, List.foldl_cons]

/-- The timer branch can be taken exactly when the loop has not returned and
the timer of the pending `select` has run out. -/
theorem step_timeout_isSome (t : CollectorState) :
    (step t .timeout).isSome = true ↔ t.returned = none ∧ t.timerStart + timeoutMs ≤ t.now := by
  simp only [step]
  cases hr : t.returned with
  | none =>
    by_cases hle : t.timerStart + timeoutMs ≤ t.now <;> simp [hle]
  | some c => simp

/-- C12 as stated fails: with two links, after an outcome received at 9 ms the
loop at 15 ms has neither returned nor can it take the timer branch; a second
outcome is counted at 18 ms and the loop returns at 28 ms. -/
theorem collector_budget_restarts :
    (steps (launch ["http://a.test", "http://b.test"])
        [.advance 9, .getDone 0 false, .receive 0, .advance 6]).map
      (fun t => (t.now, t.returned, step t .timeout)) = some (15, none, none) ∧
    (steps (launch ["http://a.test", "http://b.test"])
        [.advance 9, .getDone 0 false, .receive 0, .advance 9, .getDone 1 true, .receive 1,
          .receive 1, .advance 10, .timeout]).map
      (fun t => (t.now, t.returned)) = some (28, some 1) := by
  decide

/-- C12, amended: along every execution the 10 ms of the timer are counted from
the last outcome received, or from the beginning when none was received. The
timer branch can be taken exactly when the loop has not returned and 10 ms
have passed since then; so the loop stops only after 10 ms without an
outcome, and every outcome received restarts the budget. -/
theorem collector_budget (links : List String) (es : List Event) (t : CollectorState)
    (h : steps (launch links) es = some t) :
    t.now = elapsed es ∧
    t.timerStart + sinceLastReceive es = t.now ∧
    ((step t .timeout).isSome = true ↔
      t.returned = none ∧ timeoutMs ≤ sinceLastReceive es) ∧
    (∀ i u, step t (.receive i) = some u →
      u.timerStart = u.now ∧ sinceLastReceive (es ++ [.receive i]) = 0 ∧
        step u .timeout = none) := by
  have ht := steps_timer es (launch links) t (le_refl _) h
  have hsince : t.now - t.timerStart = sinceLastReceive es := by
    simpa [launch, sinceLastReceive] using ht.2.2
  refine ⟨by simpa [launch] using ht.2.1, by omega, ?_, ?_⟩
  · rw [step_timeout_isSome]
    constructor
    · rintro ⟨hr, hle⟩; exact ⟨hr, by omega⟩
    · rintro ⟨hr, hle⟩; exact ⟨hr, by omega⟩
  · intro i u hu
    have hrecv : u.timerStart = u.now ∧ u.returned = none := by
      simp only [step] at hu
      split at hu
      · rename_i v rest hr hp
        simp only [Option.some.injEq] at hu
        subst hu
        exact ⟨rfl, hr⟩
      · simp at hu
    refine ⟨hrecv.1, by simp [sinceLastReceive, List.foldl_append, sinceStep], ?_⟩
    simp [step, hrecv.1, hrecv.2, timeoutMs]

/-- C12, amended, at the execution with an outcome at 9 ms observed at 15 ms. -/
theorem collector_budget_witness :
    steps (launch ["http://a.test", "http://b.test"])
        [.advance 9, .getDone 0 false, .receive 0, .advance 6] =
      some { probes := [.sending [], .getting "http://b.test"], inaccessibleLinksCount := 0,
             now := 15, timerStart := 9, returned := none } ∧
    sinceLastReceive [.advance 9, .getDone 0 false, .receive 0, .advance 6] = 6 ∧
    ((step { probes := [.sending [], .getting "http://b.test"], inaccessibleLinksCount := 0,
             now := 15, timerStart := 9, returned := none } .timeout).isSome = true ↔
      (none : Option Int) = none ∧
        timeoutMs ≤ sinceLastReceive [.advance 9, .getDone 0 false, .receive 0, .advance 6]) :=
  ⟨by decide, by decide,
    (collector_budget ["http://a.test", "http://b.test"]
      [.advance 9, .getDone 0 false, .receive 0, .advance 6]
      { probes := [.sending [], .getting "http://b.test"], inaccessibleLinksCount := 0,
        now := 15, timerStart := 9, returned := none } (by decide)).2.2.1⟩

/-! ### The probe -/

/-- C20: a probe whose GET fails sends `false` and then `true`; a probe whose
GET completes sends the single value `true`, whatever the status of the
response, 404 and 500 included. The collector receives the values in that
order. -/
theorem isAccessible_sends :
    (∀ e : GoError, isAccessible (getFailed (.error e)) = [false, true]) ∧
    (∀ resp : Response, isAccessible (getFailed (.ok resp)) = [true]) ∧
    isAccessible (getFailed (.ok ⟨404, ""⟩)) = [true] ∧
    isAccessible (getFailed (.ok ⟨500, ""⟩)) = [true] ∧
    (steps (launch ["http://a.test"])
        [.getDone 0 (getFailed (.error (.lib "connection refused"))), .receive 0]).map
      (fun t => (t.probes, t.inaccessibleLinksCount)) = some ([.sending [true]], 1) ∧
    (steps (launch ["http://a.test"])
        [.getDone 0 (getFailed (.error (.lib "connection refused"))), .receive 0,
          .receive 0]).map
      (fun t => (t.probes, t.inaccessibleLinksCount)) = some ([.sending []], 1) ∧
    (steps (launch ["http://a.test"])
        [.getDone 0 (getFailed (.ok ⟨404, ""⟩)), .receive 0]).map
      (fun t => (t.probes, t.inaccessibleLinksCount)) = some ([.sending []], 0) := by
  refine ⟨fun _ => rfl, fun _ => rfl, rfl, rfl, by decide, by decide, by decide⟩

/-! ### The version detector: the last match -/

/-- When some entry matches, the loop ends with the label of the last entry
that matches. -/
theorem detect_foldl_last (html : String) (l : List (String × String)) (v : String)
    (h : ∃ e ∈ l, strings.Contains html e.2 = true) :
    ∃ pre e post, l = pre ++ e :: post ∧ strings.Contains html e.2 = true ∧
      (∀ x ∈ post, ¬ strings.Contains html x.2 = true) ∧
      l.foldl (detectStep html) v = e.1 := by
  rw [detect_foldl]
  cases hfind : l.reverse.find? (fun e => strings.Contains html e.2) with
  | none =>
    obtain ⟨e, he, hm⟩ := h
    have := List.find?_eq_none.mp hfind e (List.mem_reverse.mpr he)
    exact absurd hm this
  | some b =>
    obtain ⟨hb, as, bs, hsplit, hno⟩ := List.find?_eq_some.mp hfind
    refine ⟨bs.reverse, b, as.reverse, ?_, hb, ?_, by simp⟩
    · have := congrArg List.reverse hsplit
      simpa using this
    · intro x hx
      have := hno x (List.mem_reverse.mp hx)
      simpa using this

/-- C13: for every text and every iteration order of the table, if some
signature occurs in the text then `detectHTMLVersion` returns the label of the
last entry, in that order, whose signature occurs in the text. -/
theorem detectHTMLVersion_last_match (order : List (String × String))
    (horder : IterationOrder order) (html : String)
    (h : ∃ e ∈ doctypes, OccursIn e.2 html) :
    ∃ pre e post, order = pre ++ e :: post ∧ OccursIn e.2 html ∧
      (∀ x ∈ post, ¬ OccursIn x.2 html) ∧ detectHTMLVersion order html = e.1 := by
  have h2 : ∃ e ∈ order, strings.Contains html e.2 = true := by
    obtain ⟨e, he, hocc⟩ := h
    exact ⟨e, horder.mem_iff.mpr he, (Contains_iff html e.2).mpr hocc⟩
  obtain ⟨pre, e, post, hsplit, hm, hno, hres⟩ := detect_foldl_last html order "UNKNOWN" h2
  refine ⟨pre, e, post, hsplit, (Contains_iff html e.2).mp hm, ?_, hres⟩
  intro x hx hocc
  exact hno x hx ((Contains_iff html x.2).mpr hocc)

/-- C13 at the reversed table and a text with two signatures. -/
theorem detectHTMLVersion_last_match_witness :
    IterationOrder doctypes.reverse ∧
    (∃ e ∈ doctypes, OccursIn e.2 twoSignaturesText) ∧
    detectHTMLVersion doctypes.reverse twoSignaturesText = "XHTML 1.1" ∧
    detectHTMLVersion doctypes twoSignaturesText = "HTML 5" ∧
    ∃ pre e post, doctypes.reverse = pre ++ e :: post ∧ OccursIn e.2 twoSignaturesText ∧
      (∀ x ∈ post, ¬ OccursIn x.2 twoSignaturesText) ∧
      detectHTMLVersion doctypes.reverse twoSignaturesText = e.1 :=
  ⟨List.reverse_perm doctypes,
    ⟨("HTML 5", "<!DOCTYPE html>"), by decide,
      (Contains_iff twoSignaturesText "<!DOCTYPE html>").mp (by decide)⟩,
    by decide, by decide,
    detectHTMLVersion_last_match doctypes.reverse (List.reverse_perm doctypes) twoSignaturesText
      ⟨("HTML 5", "<!DOCTYPE html>"), by decide,
        (Contains_iff twoSignaturesText "<!DOCTYPE html>").mp (by decide)⟩⟩

/-! ### The service: what reaches the repository -/

/-- The calls of `Search` once the page is fetched, parsed and serialized. -/
theorem Search_ok_calls (w : World) (URL : String) (resp : Response) (doc : Document)
    (html : String) (hget : w.httpGet URL = .ok resp) (hs : resp.StatusCode = 200)
    (hp : w.NewDocumentFromReader resp.Body = .ok doc)
    (hh : doc.Html w.render = (html, none)) :
    (Search w URL).calls =
      [.httpGet URL, .newDocumentFromReader, .docHtml, .detectHTMLVersion,
        .detectPageTitle, .detectHeadingsCountByLevel, .detectLinks,
        .detectInaccessibleLinksCount]
      ++ (extractLinks doc).map Call.goIsAccessible
      ++ [.detectHaveLoginForm,
          .repoCreate (detectHTMLVersion w.order html) (detectPageTitle doc)
            (detectHeadingsCountByLevel doc) (detectLinks doc)
            (detectInaccessibleLinksCount doc w.schedule) (detectHaveLoginForm w.render doc),
          .bodyClose] := by
  simp only [Search, hget, hs, hp, hh, ne_eq, not_true_eq_false, if_false]
  split <;> rfl

/-- A call of `repo.Create` recorded by `Search` carries the six values of the
detectors on the fetched document. -/
theorem Search_repoCreate_mem (w : World) (URL : String) (v t h : String) (l n : Int)
    (f : Bool) (hmem : Call.repoCreate v t h l n f ∈ (Search w URL).calls) :
    ∃ resp doc html, w.httpGet URL = .ok resp ∧ resp.StatusCode = 200 ∧
      w.NewDocumentFromReader resp.Body = .ok doc ∧ doc.Html w.render = (html, none) ∧
      v = detectHTMLVersion w.order html ∧ t = detectPageTitle doc ∧
      h = detectHeadingsCountByLevel doc ∧ l = detectLinks doc ∧
      n = detectInaccessibleLinksCount doc w.schedule ∧
      f = detectHaveLoginForm w.render doc := by
  cases hget : w.httpGet URL with
  | error e =>
    rw [Search_fetch_error w URL e hget] at hmem
    simp at hmem
  | ok resp =>
    by_cases hs : resp.StatusCode = 200
    · cases hp : w.NewDocumentFromReader resp.Body with
      | error e =>
        rw [Search_parse_error w URL resp e hget hs hp] at hmem
        simp at hmem
      | ok doc =>
        cases hh : doc.Html w.render with
        | mk html herr =>
          cases herr with
          | some e =>
            simp [Search, hget, hs, hp, hh] at hmem
          | none =>
            rw [Search_ok_calls w URL resp doc html hget hs hp hh] at hmem
            simp only [List.mem_append, List.mem_cons, List.mem_map, List.mem_singleton,
              List.not_mem_nil, or_false, false_or, reduceCtorEq, and_false, exists_false,
              Call.repoCreate.injEq] at hmem
            obtain ⟨h1, h2, h3, h4, h5, h6⟩ := hmem
            exact ⟨resp, doc, html, rfl, hs, hp, hh, h1, h2, h3, h4, h5, h6⟩
    · rw [Search_bad_status w URL resp hget hs] at hmem
      simp at hmem

/-- The count of inaccessible links lies between 0 and the value of `detectLinks`. -/
theorem count_between (query : Document) (schedule : List Event) :
    0 ≤ detectInaccessibleLinksCount query schedule ∧
      detectInaccessibleLinksCount query schedule ≤ detectLinks query := by
  have h := detectInaccessibleLinksCount_bounds query schedule
  rw [detectLinks_eq_length]
  exact h

/-- C14 as stated fails: over the same fetched page, two iteration orders of
the table give two HTML versions, and two timings of the same failing probe
give two counts of inaccessible links. -/
theorem Search_depends_on_order_and_timing :
    IterationOrder doctypes ∧ IterationOrder doctypes.reverse ∧
    (Search (twoSignaturesWorld doctypes [.advance 10, .timeout]) "http://a.test").url.HTMLVersion
      = "HTML 5" ∧
    (Search (twoSignaturesWorld doctypes.reverse [.advance 10, .timeout])
      "http://a.test").url.HTMLVersion = "XHTML 1.1" ∧
    (Search (twoSignaturesWorld doctypes [.advance 10, .timeout])
      "http://a.test").url.InaccessibleLinksCount = 0 ∧
    (Search (twoSignaturesWorld doctypes [.advance 3, .getDone 0 true, .receive 0, .receive 0,
      .advance 10, .timeout]) "http://a.test").url.InaccessibleLinksCount = 1 := by
  refine ⟨List.Perm.refl _, List.reverse_perm _, by decide, by decide, by decide, by decide⟩

/-! ### Validation -/

/-- C15: `Validate` returns an error exactly when one of `HTMLVersion`,
`PageTitle`, `HeadingsCount` is the empty string; the error is then an
`*internal.Error` with the code `ErrorCodeInvalidArgument`; when the three are
not empty it returns nil. -/
theorem Validate_iff (u : internal.URL) :
    (u.Validate ≠ none ↔ (u.HTMLVersion = "" ∨ u.PageTitle = "" ∨ u.HeadingsCount = "")) ∧
    (∀ e, u.Validate = some e →
      ∃ ierr, errorsAs (some e) = some ierr ∧
        ierr.Code = internal.ErrorCode.ErrorCodeInvalidArgument) ∧
    (u.HTMLVersion ≠ "" → u.PageTitle ≠ "" → u.HeadingsCount ≠ "" → u.Validate = none) := by
  refine ⟨?_, ?_, ?_⟩
  · by_cases h1 : u.HTMLVersion = ""
    · simp [internal.URL.Validate, h1]
    · by_cases h2 : u.PageTitle = ""
      · simp [internal.URL.Validate, h1, h2]
      · by_cases h3 : u.HeadingsCount = ""
        · simp [internal.URL.Validate, h1, h2, h3]
        · simp [internal.URL.Validate, h1, h2, h3]
  · intro e he
    unfold internal.URL.Validate at he
    split at he
    · simp only [Option.some.injEq] at he
      subst he
      exact ⟨_, rfl, rfl⟩
    · split at he
      · simp only [Option.some.injEq] at he
        subst he
        exact ⟨_, rfl, rfl⟩
      · split at he
        · simp only [Option.some.injEq] at he
          subst he
          exact ⟨_, rfl, rfl⟩
        · simp at he
  · intro h1 h2 h3
    simp [internal.URL.Validate, h1, h2, h3]

/-- C15 at the four records of `TestURL_Validate`. -/
theorem Validate_iff_witness :
    (⟨"", "22", "title", "hc", 2, 5, true⟩ : internal.URL).Validate = none ∧
    (∃ ierr, errorsAs (some (internal.NewErrorf .ErrorCodeInvalidArgument
        "HTMLVersion is required")) = some ierr ∧
      ierr.Code = internal.ErrorCode.ErrorCodeInvalidArgument) ∧
    (⟨"", "22", "", "hc", 2, 5, true⟩ : internal.URL).Validate ≠ none ∧
    (⟨"", "22", "title", "", 2, 5, true⟩ : internal.URL).Validate ≠ none :=
  ⟨(Validate_iff ⟨"", "22", "title", "hc", 2, 5, true⟩).2.2 (by decide) (by decide) (by decide),
    (Validate_iff ⟨"", "", "title", "hc", 2, 5, true⟩).2.1 _ rfl,
    (Validate_iff ⟨"", "22", "", "hc", 2, 5, true⟩).1.mpr (Or.inr (Or.inl rfl)),
    (Validate_iff ⟨"", "22", "title", "", 2, 5, true⟩).1.mpr (Or.inr (Or.inr rfl))⟩

/-! ### The REST layer -/

/-- C16: `renderErrorResponse` writes status 500 with the text `internal error`
when the error is not and does not wrap an `*internal.Error`; otherwise it
writes the message with status 404 for the code `ErrorCodeNotFound`, 400 for
`ErrorCodeInvalidArgument` and 500 for every other code. -/
theorem renderErrorResponse_cases (msg : String) (err : Option GoError) :
    (errorsAs err = none →
      rest.renderErrorResponse msg err = ⟨500, .ErrorResponse "internal error"⟩) ∧
    (∀ ierr, errorsAs err = some ierr → ierr.Code = .ErrorCodeNotFound →
      rest.renderErrorResponse msg err = ⟨404, .ErrorResponse msg⟩) ∧
    (∀ ierr, errorsAs err = some ierr → ierr.Code = .ErrorCodeInvalidArgument →
      rest.renderErrorResponse msg err = ⟨400, .ErrorResponse msg⟩) ∧
    (∀ ierr, errorsAs err = some ierr → ierr.Code ≠ .ErrorCodeNotFound →
      ierr.Code ≠ .ErrorCodeInvalidArgument →
      rest.renderErrorResponse msg err = ⟨500, .ErrorResponse msg⟩) := by
  refine ⟨?_, ?_, ?_, ?_⟩
  · intro h
    simp [rest.renderErrorResponse, h, rest.renderResponse, rest.StatusInternalServerError]
  · intro ierr h hc
    simp [rest.renderErrorResponse, h, hc, rest.renderResponse, rest.StatusNotFound]
  · intro ierr h hc
    simp [rest.renderErrorResponse, h, hc, rest.renderResponse, rest.StatusBadRequest]
  · intro ierr h hn hi
    simp [rest.renderErrorResponse, h, hn, hi, rest.renderResponse,
      rest.StatusInternalServerError]

/-- C16 at the errors of the tests and at a wrapped repository error. -/
theorem renderErrorResponse_cases_witness :
    rest.renderErrorResponse "find failed" (some (.errorsNew "service error")) =
      ⟨500, .ErrorResponse "internal error"⟩ ∧
    rest.renderErrorResponse "find failed"
        (some (internal.NewErrorf .ErrorCodeNotFound "not found")) =
      ⟨404, .ErrorResponse "find failed"⟩ ∧
    rest.renderErrorResponse "find failed"
        (some (.wrapped "repo find"
          (internal.WrapErrorf (.lib "invalid UUID length: 1") .ErrorCodeInvalidArgument
            "invalid uuid"))) =
      ⟨400, .ErrorResponse "find failed"⟩ ∧
    rest.renderErrorResponse "search failed"
        (some (.wrapped "repo create"
          (internal.WrapErrorf (.lib "connection refused") .ErrorCodeUnknown "insert URL"))) =
      ⟨500, .ErrorResponse "search failed"⟩ :=
  ⟨(renderErrorResponse_cases "find failed" (some (.errorsNew "service error"))).1 rfl,
    (renderErrorResponse_cases "find failed" _).2.1 ⟨.ErrorCodeNotFound, "not found"⟩ rfl rfl,
    (renderErrorResponse_cases "find failed" _).2.2.1
      ⟨.ErrorCodeInvalidArgument, "invalid uuid"⟩ rfl rfl,
    (renderErrorResponse_cases "search failed" _).2.2.2
      ⟨.ErrorCodeUnknown, "insert URL"⟩ rfl (by decide) (by decide)⟩

/-- C17: when the service returns a record with a nil error, the handler
`search` answers 201 and the handler `find` answers 200, and the URL object of
the body has the seven fields of the record. -/
theorem handlers_success (u : rest.URLHandler)
    (decode : String → Except GoError rest.CreateURLsRequest) :
    (∀ body req url, decode body = .ok req → u.svc.Search req.URL = (url, none) →
      (u.search decode body).response =
        ⟨201, .CreateURLsResponse ⟨url.ID, url.HTMLVersion, url.PageTitle, url.HeadingsCount,
          url.LinksCount, url.InaccessibleLinksCount, url.HaveLoginForm⟩⟩) ∧
    (∀ id url, u.svc.Find id = (url, none) →
      (u.find id).response =
        ⟨200, .ReadURLResponse ⟨url.ID, url.HTMLVersion, url.PageTitle, url.HeadingsCount,
          url.LinksCount, url.InaccessibleLinksCount, url.HaveLoginForm⟩⟩) := by
  constructor
  · intro body req url hd hs
    simp [rest.URLHandler.search, hd, hs, rest.renderResponse, rest.StatusCreated]
  · intro id url hf
    simp [rest.URLHandler.find, hf, rest.renderResponse, rest.StatusOK]

/-- C17 at the record of the tests. -/
theorem handlers_success_witness :
    ((rest.URLHandler.mk rest.sampleService).search rest.sampleDecode
        "\x7b\"url\":\"exampleurl\"\x7d").response =
      ⟨201, .CreateURLsResponse
        ⟨"1-2-3", "22", "url.PageTitle", "url.HeadingsCount", 2, 3, true⟩⟩ ∧
    ((rest.URLHandler.mk rest.sampleService).find
        "aaaaaaaa-bbbb-cccc-dddd-eeeeeeeeeeee").response =
      ⟨200, .ReadURLResponse
        ⟨"1-2-3", "22", "url.PageTitle", "url.HeadingsCount", 2, 3, true⟩⟩ :=
  ⟨(handlers_success ⟨rest.sampleService⟩ rest.sampleDecode).1
      "\x7b\"url\":\"exampleurl\"\x7d" ⟨"exampleurl"⟩ rest.sampleRecord rfl rfl,
    (handlers_success ⟨rest.sampleService⟩ rest.sampleDecode).2
      "aaaaaaaa-bbbb-cccc-dddd-eeeeeeeeeeee" rest.sampleRecord rfl⟩

/-- C18: when the body of the request does not decode into a
`CreateURLsRequest`, the handler `search` answers 400 with the text
`invalid request` and does not call the service. -/
theorem search_invalid_request (u : rest.URLHandler)
    (decode : String → Except GoError rest.CreateURLsRequest) (body : String) (e : GoError)
    (h : decode body = .error e) :
    (u.search decode body).response = ⟨400, .ErrorResponse "invalid request"⟩ ∧
    (u.search decode body).calls = [] := by
  simp [rest.URLHandler.search, h, rest.renderErrorResponse, errorsAs, asInternalError,
    internal.WrapErrorf, internal.Error.Code, rest.renderResponse, rest.StatusBadRequest]

/-- C18 at the truncated body of the tests. -/
theorem search_invalid_request_witness :
    rest.sampleDecode "\x7b\"invalid\":\"json" = .error (.lib "unexpected end of JSON input") ∧
    ((rest.URLHandler.mk rest.sampleService).search rest.sampleDecode
        "\x7b\"invalid\":\"json").response = ⟨400, .ErrorResponse "invalid request"⟩ ∧
    ((rest.URLHandler.mk rest.sampleService).search rest.sampleDecode
        "\x7b\"invalid\":\"json").calls = [] :=
  ⟨rfl,
    search_invalid_request ⟨rest.sampleService⟩ rest.sampleDecode "\x7b\"invalid\":\"json"
      (.lib "unexpected end of JSON input") rfl⟩

/-! ### The repository: the round trip -/

/-- The conversion `int32` keeps the values of the range of `int32`. -/
theorem int32_of_range (n : Int) (hlo : -2147483648 ≤ n) (hhi : n ≤ 2147483647) :
    postgresql.int32 n = n := by
  unfold postgresql.int32
  omega

/-- The sample database keeps what is inserted. -/
theorem sampleQueries_faithful : postgresql.sampleQueries.Faithful := by
  constructor
  · intro id
    simp [postgresql.sampleQueries, id.property]
  · intro db p id db2 h
    simp only [postgresql.sampleQueries, Prod.mk.injEq, Except.ok.injEq] at h
    obtain ⟨hid, hdb⟩ := h
    subst hid
    subst hdb
    simp [postgresql.sampleQueries]

/-- C19 as stated fails: created with `2^31` links, the record holds
`2147483648` and the record found under its identifier holds `-2147483648`. -/
theorem Create_Find_out_of_range :
    (postgresql.Create postgresql.sampleQueries [] "22" "asd" "asd" 2147483648 1 true).1 =
      (⟨"44633fe3-b039-4fb3-a35f-a57fe3c906c7", "22", "asd", "asd", 2147483648, 1, true⟩,
        none) ∧
    postgresql.Find postgresql.sampleQueries
        (postgresql.Create postgresql.sampleQueries [] "22" "asd" "asd" 2147483648 1 true).2
        "44633fe3-b039-4fb3-a35f-a57fe3c906c7" =
      (⟨"44633fe3-b039-4fb3-a35f-a57fe3c906c7", "22", "asd", "asd", -2147483648, 1, true⟩,
        none) := by
  decide

/-- C19, amended: over a database that keeps what is inserted, when the two
counts lie in the range of `int32` and `Create` succeeds with the record `r`,
`Find` on the identifier of `r` succeeds and returns `r`, equal in all seven
fields. -/
theorem Create_Find_roundtrip {U DB : Type} (q : postgresql.Queries U DB)
    (hq : q.Faithful) (db db2 : DB) (HTMLVersion pageTitle headingsCount : String)
    (linksCount inaccessibleLinksCount : Int) (haveLoginForm : Bool) (r : internal.URL)
    (hl : -2147483648 ≤ linksCount ∧ linksCount ≤ 2147483647)
    (hi : -2147483648 ≤ inaccessibleLinksCount ∧ inaccessibleLinksCount ≤ 2147483647)
    (hc : postgresql.Create q db HTMLVersion pageTitle headingsCount linksCount
      inaccessibleLinksCount haveLoginForm = ((r, none), db2)) :
    postgresql.Find q db2 r.ID = (r, none) := by
  unfold postgresql.Create at hc
  split at hc
  · simp at hc
  · rename_i id db3 hins
    simp only [Prod.mk.injEq, and_true, true_and] at hc
    obtain ⟨hr, hdb⟩ := hc
    subst hdb
    subst hr
    have hsel := hq.2 _ _ _ _ hins
    simp only [postgresql.Find, hq.1 id, hsel, int32_of_range linksCount hl.1 hl.2,
      int32_of_range inaccessibleLinksCount hi.1 hi.2]

/-- C19, amended, at the values of `TestURL_Find` on the sample database. -/
theorem Create_Find_roundtrip_witness :
    postgresql.sampleQueries.Faithful ∧
    postgresql.Create postgresql.sampleQueries [] "22" "asd" "asd" 1 1 true =
      ((⟨"44633fe3-b039-4fb3-a35f-a57fe3c906c7", "22", "asd", "asd", 1, 1, true⟩, none),
        [⟨postgresql.sampleID, "22", "asd", "asd", 1, 1, true⟩]) ∧
    postgresql.Find postgresql.sampleQueries
        [⟨postgresql.sampleID, "22", "asd", "asd", 1, 1, true⟩]
        "44633fe3-b039-4fb3-a35f-a57fe3c906c7" =
      (⟨"44633fe3-b039-4fb3-a35f-a57fe3c906c7", "22", "asd", "asd", 1, 1, true⟩, none) :=
  ⟨sampleQueries_faithful, by decide,
    Create_Find_roundtrip postgresql.sampleQueries sampleQueries_faithful []
      [⟨postgresql.sampleID, "22", "asd", "asd", 1, 1, true⟩] "22" "asd" "asd" 1 1 true
      ⟨"44633fe3-b039-4fb3-a35f-a57fe3c906c7", "22", "asd", "asd", 1, 1, true⟩
      (by decide) (by decide) (by decide)⟩

/-! ### The service: the success path -/

/-- C21: once the page is fetched with status 200, parsed and serialized,
`Search` calls `repo.Create` exactly once, with the values of
`detectHTMLVersion`, `detectPageTitle`, `detectHeadingsCountByLevel`,
`detectLinks`, `detectInaccessibleLinksCount` and `detectHaveLoginForm` in that
order; it returns the record of `Create` unchanged with a nil error, and when
`Create` fails it returns the zero record with an error that wraps the error
of `Create`. -/
theorem Search_success_path (w : World) (URL : String) (resp : Response) (doc : Document)
    (html : String) (hget : w.httpGet URL = .ok resp) (hs : resp.StatusCode = 200)
    (hp : w.NewDocumentFromReader resp.Body = .ok doc)
    (hh : doc.Html w.render = (html, none)) :
    (Search w URL).calls.filter Call.isRepoCreate =
      [.repoCreate (detectHTMLVersion w.order html) (detectPageTitle doc)
        (detectHeadingsCountByLevel doc) (detectLinks doc)
        (detectInaccessibleLinksCount doc w.schedule) (detectHaveLoginForm w.render doc)] ∧
    (∀ info, w.repo.Create (detectHTMLVersion w.order html) (detectPageTitle doc)
        (detectHeadingsCountByLevel doc) (detectLinks doc)
        (detectInaccessibleLinksCount doc w.schedule) (detectHaveLoginForm w.render doc)
          = (info, none) →
      (Search w URL).url = info ∧ (Search w URL).err = none) ∧
    (∀ info err, w.repo.Create (detectHTMLVersion w.order html) (detectPageTitle doc)
        (detectHeadingsCountByLevel doc) (detectLinks doc)
        (detectInaccessibleLinksCount doc w.schedule) (detectHaveLoginForm w.render doc)
          = (info, some err) →
      (Search w URL).url = internal.URL.zero ∧
        (Search w URL).err = some (.wrapped "repo create" err) ∧
        errorsIs (.wrapped "repo create" err) err = true) := by
  refine ⟨?_, ?_, ?_⟩
  · rw [Search_ok_calls w URL resp doc html hget hs hp hh]
    have hprobe : ∀ links : List String,
        (links.map Call.goIsAccessible).filter Call.isRepoCreate = [] := by
      intro links
      induction links with
      | nil => rfl
      | cons l ls ih => simp [List.filter, Call.isRepoCreate, ih]
    simp [List.filter_append, hprobe, Call.isRepoCreate, List.filter]
  · intro info hc
    simp [Search, hget, hs, hp, hh, hc]
  · intro info err hc
    refine ⟨?_, ?_, ?_⟩
    · simp [Search, hget, hs, hp, hh, hc]
    · simp [Search, hget, hs, hp, hh, hc]
    · cases err <;> simp [errorsIs]

/-- C21 at a page fetched with status 200, with a repository that stores and
with a repository that fails. -/
theorem Search_success_path_witness :
    (Search (noTitleWorld postgresRepo) "http://a.test").calls.filter Call.isRepoCreate =
      [.repoCreate "UNKNOWN" "" "h1: 0  h2: 0  h3: 0  h4: 0  h5: 0  h6:   0" 0 0 false] ∧
    ((Search (noTitleWorld postgresRepo) "http://a.test").url =
        ⟨"44633fe3-b039-4fb3-a35f-a57fe3c906c7", "UNKNOWN", "",
          "h1: 0  h2: 0  h3: 0  h4: 0  h5: 0  h6:   0", 0, 0, false⟩ ∧
      (Search (noTitleWorld postgresRepo) "http://a.test").err = none) ∧
    ((Search (noTitleWorld failingRepo) "http://a.test").url = internal.URL.zero ∧
      (Search (noTitleWorld failingRepo) "http://a.test").err =
        some (.wrapped "repo create"
          (internal.WrapErrorf (.lib "connection refused") .ErrorCodeUnknown "insert URL")) ∧
      errorsIs (.wrapped "repo create"
          (internal.WrapErrorf (.lib "connection refused") .ErrorCodeUnknown "insert URL"))
        (internal.WrapErrorf (.lib "connection refused") .ErrorCodeUnknown "insert URL")
          = true) :=
  ⟨(Search_success_path (noTitleWorld postgresRepo) "http://a.test" ⟨200, ""⟩ noAnchorDoc
      "<html>Login PASSWORD</html>" rfl rfl rfl (by decide)).1,
    (Search_success_path (noTitleWorld postgresRepo) "http://a.test" ⟨200, ""⟩ noAnchorDoc
      "<html>Login PASSWORD</html>" rfl rfl rfl (by decide)).2.1 _ (by decide),
    (Search_success_path (noTitleWorld failingRepo) "http://a.test" ⟨200, ""⟩ noAnchorDoc
      "<html>Login PASSWORD</html>" rfl rfl rfl (by decide)).2.2 internal.URL.zero _ rfl⟩

/-- C25: `Search` does not establish `Validate` on its result. On a page
without a title element, fetched with status 200 and stored through the
PostgreSQL repository, `Search` succeeds and returns a record with an empty
`PageTitle`; `Validate` rejects that record with an `*internal.Error` of code
`ErrorCodeInvalidArgument`. -/
theorem Search_result_not_validated :
    elementsWithTag "title" noAnchorDoc = [] ∧
    (noTitleWorld postgresRepo).httpGet "http://a.test" = .ok ⟨200, ""⟩ ∧
    (Search (noTitleWorld postgresRepo) "http://a.test").err = none ∧
    (Search (noTitleWorld postgresRepo) "http://a.test").url.PageTitle = "" ∧
    (Search (noTitleWorld postgresRepo) "http://a.test").url.Validate =
      some (internal.NewErrorf .ErrorCodeInvalidArgument "PageTitle is required") ∧
    (errorsAs (Search (noTitleWorld postgresRepo) "http://a.test").url.Validate).map
      internal.Error.Code = some .ErrorCodeInvalidArgument := by
  refine ⟨rfl, rfl, by decide, by decide, by decide, by decide⟩

/-! ### The version detector: texts with one signature -/

/-- In the table, a signature contained in the signature of an entry belongs to
that entry. -/
theorem doctypes_no_overlap :
    ∀ e ∈ doctypes, ∀ f ∈ doctypes, strings.Contains f.2 e.2 = true → e = f := by
  decide

/-- A text in which the signature of `e` occurs and no signature of another
entry gets the label of `e`, whatever the iteration order. -/
theorem detectHTMLVersion_single (order : List (String × String))
    (horder : IterationOrder order) (html : String) (e : String × String)
    (he : e ∈ doctypes) (hocc : OccursIn e.2 html)
    (hothers : ∀ f ∈ doctypes, f ≠ e → ¬ OccursIn f.2 html) :
    detectHTMLVersion order html = e.1 := by
  have hex : ∃ x ∈ order, strings.Contains html x.2 = true :=
    ⟨e, horder.mem_iff.mpr he, (Contains_iff html e.2).mpr hocc⟩
  obtain ⟨pre, x, post, hsplit, hm, _, hres⟩ := detect_foldl_last html order "UNKNOWN" hex
  have hx : x ∈ doctypes := by
    apply horder.mem_iff.mp
    rw [hsplit]
    simp
  have hxe : x = e := by
    by_contra hne
    exact hothers x hx hne ((Contains_iff html x.2).mp hm)
  unfold detectHTMLVersion
  rw [hres, hxe]

/-- C22: no signature of the table occurs in a different signature of the
table; so, under every iteration order, the text that is exactly the signature
of an entry gets the label of that entry, and any text in which the signature
of exactly one entry occurs gets the label of that entry. -/
theorem signatures_do_not_overlap (order : List (String × String))
    (horder : IterationOrder order) :
    (∀ e ∈ doctypes, ∀ f ∈ doctypes, e ≠ f → ¬ OccursIn e.2 f.2) ∧
    (∀ e ∈ doctypes, detectHTMLVersion order e.2 = e.1) ∧
    (∀ html, ∀ e ∈ doctypes, OccursIn e.2 html →
      (∀ f ∈ doctypes, f ≠ e → ¬ OccursIn f.2 html) →
      detectHTMLVersion order html = e.1) := by
  have hno : ∀ e ∈ doctypes, ∀ f ∈ doctypes, e ≠ f → ¬ OccursIn e.2 f.2 := by
    intro e he f hf hne hocc
    exact hne (doctypes_no_overlap e he f hf ((Contains_iff f.2 e.2).mpr hocc))
  refine ⟨hno, ?_, ?_⟩
  · intro e he
    apply detectHTMLVersion_single order horder e.2 e he
    · exact List.infix_refl _
    · intro f hf hne
      exact hno f hf e he hne
  · intro html e he hocc hothers
    exact detectHTMLVersion_single order horder html e he hocc hothers

/-- C22 at the reversed table, at the signature of XHTML 1.0 Strict and at a
page with the HTML 5 doctype only. -/
theorem signatures_do_not_overlap_witness :
    IterationOrder doctypes.reverse ∧
    detectHTMLVersion doctypes.reverse "\"-//W3C//DTD XHTML 1.0 Strict//EN\"" =
      "XHTML 1.0 Strict" ∧
    detectHTMLVersion doctypes.reverse "<!DOCTYPE html><html><body></body></html>" =
      "HTML 5" :=
  ⟨List.reverse_perm doctypes,
    (signatures_do_not_overlap doctypes.reverse (List.reverse_perm doctypes)).2.1
      ("XHTML 1.0 Strict", "\"-//W3C//DTD XHTML 1.0 Strict//EN\"") (by decide),
    (signatures_do_not_overlap doctypes.reverse (List.reverse_perm doctypes)).2.2
      "<!DOCTYPE html><html><body></body></html>" ("HTML 5", "<!DOCTYPE html>") (by decide)
      ((Contains_iff _ _).mp (by decide))
      (fun f hf hne hocc =>
        hne ((by decide : ∀ g ∈ doctypes,
            strings.Contains "<!DOCTYPE html><html><body></body></html>" g.2 = true →
              g = ("HTML 5", "<!DOCTYPE html>"))
          f hf ((Contains_iff _ _).mpr hocc)))⟩

/-! ### Executions: the number of iterations -/

theorem sendsLeft_set (ps : List Probe) (i : Nat) (p q : Probe) (h : ps[i]? = some p) :
    sendsLeft (ps.set i q) + p.sendsLeft = sendsLeft ps + q.sendsLeft := by
  induction ps generalizing i with
  | nil => simp at h
  | cons x xs ih =>
    cases i with
    | zero =>
      simp only [List.getElem?_cons_zero, Option.some.injEq] at h
      subst h
      simp only [List.set_cons_zero, sendsLeft]
      omega
    | succ j =>
      simp only [List.getElem?_cons_succ] at h
      have := ih j h
      simp only [List.set_cons_succ, sendsLeft]
      omega

theorem sendsLeft_launch (links : List String) :
    sendsLeft (links.map Probe.getting) = 2 * links.length := by
  induction links with
  | nil => rfl
  | cons l ls ih =>
    simp only [List.map_cons, sendsLeft, ih, Probe.sendsLeft, List.length_cons]
    omega

theorem receives_cons (e : Event) (es : List Event) :
    receives (e :: es) = receives [e] + receives es := by
  simp only [receives, List.countP_cons, List.countP_nil]
  omega

/-- An event does not add to what the probes can send; a receive takes one
value away. -/
theorem step_sends (s u : CollectorState) (e : Event) (h : step s e = some u) :
    receives [e] + sendsLeft u.probes ≤ sendsLeft s.probes ∧
      (e.isReceive = true → sendsLeft u.probes + 1 = sendsLeft s.probes) := by
  cases e with
  | advance ms =>
    simp only [step, Option.some.injEq] at h
    subst h
    simp [receives, Event.isReceive]
  | getDone i failed =>
    simp only [step] at h
    split at h
    · rename_i url hp
      simp only [Option.some.injEq] at h
      subst h
      have hset := sendsLeft_set s.probes i _ (Probe.sending (isAccessible failed)) hp
      have hlen : (Probe.sending (isAccessible failed)).sendsLeft ≤ 2 := by
        cases failed <;> decide
      simp only [Probe.sendsLeft] at hset hlen
      simp only [receives, Event.isReceive, List.countP_cons, List.countP_nil]
      constructor
      · simp only [Bool.false_eq_true, if_false]; omega
      · intro hfalse; simp at hfalse
    · simp at h
  | receive i =>
    simp only [step] at h
    split at h
    · rename_i v rest hr hp
      simp only [Option.some.injEq] at h
      subst h
      have hset := sendsLeft_set s.probes i _ (Probe.sending rest) hp
      simp only [Probe.sendsLeft, List.length_cons] at hset
      simp only [receives, Event.isReceive, List.countP_cons, List.countP_nil]
      constructor
      · simp only [if_true]; omega
      · intro _; omega
    · simp at h
  | timeout =>
    simp only [step] at h
    split at h
    · split at h
      · simp only [Option.some.injEq] at h
        subst h
        simp [receives, Event.isReceive]
      · simp at h
    · simp at h

theorem steps_sends (es : List Event) (s t : CollectorState) (h : steps s es = some t) :
    receives es + sendsLeft t.probes ≤ sendsLeft s.probes := by
  induction es generalizing s with
  | nil =>
    simp only [steps, Option.some.injEq] at h
    subst h
    simp [receives]
  | cons e es ih =>
    simp only [steps] at h
    cases hstep : step s e with
    | none => simp [hstep] at h
    | some u =>
      simp only [hstep, Option.some_bind] at h
      have h1 := (step_sends s u e hstep).1
      have h2 := ih u h
      rw [receives_cons]
      omega

/-- An event either is the timer branch, taken while the loop has not returned
and returning the count, or leaves the returned value as it is. -/
theorem step_returned_cases (s u : CollectorState) (e : Event) (h : step s e = some u) :
    (e = .timeout ∧ s.returned = none ∧ u.returned = some s.inaccessibleLinksCount) ∨
    (e ≠ .timeout ∧ u.returned = s.returned) := by
  cases e with
  | advance ms =>
    simp only [step, Option.some.injEq] at h
    subst h
    exact Or.inr ⟨by simp, rfl⟩
  | getDone i failed =>
    simp only [step] at h
    split at h
    · simp only [Option.some.injEq] at h
      subst h
      exact Or.inr ⟨by simp, rfl⟩
    · simp at h
  | receive i =>
    simp only [step] at h
    split at h
    · simp only [Option.some.injEq] at h
      subst h
      exact Or.inr ⟨by simp, rfl⟩
    · simp at h
  | timeout =>
    simp only [step] at h
    split at h
    · rename_i hr
      split at h
      · simp only [Option.some.injEq] at h
        subst h
        exact Or.inl ⟨rfl, hr, rfl⟩
      · simp at h
    · simp at h

/-- The timer branch is taken at most once, and the loop has returned exactly
when it was taken. -/
theorem steps_timeouts (es : List Event) (s t : CollectorState) (h : steps s es = some t) :
    (s.returned = none → timeouts es ≤ 1 ∧ (t.returned = none ↔ timeouts es = 0)) ∧
    (s.returned ≠ none → timeouts es = 0 ∧ t.returned ≠ none) := by
  induction es generalizing s with
  | nil =>
    simp only [steps, Option.some.injEq] at h
    subst h
    simp [timeouts]
  | cons e es ih =>
    simp only [steps] at h
    cases hstep : step s e with
    | none => simp [hstep] at h
    | some u =>
      simp only [hstep, Option.some_bind] at h
      have hih := ih u h
      rcases step_returned_cases s u e hstep with ⟨he, hs, hu⟩ | ⟨he, hu⟩
      · subst he
        have hu2 : u.returned ≠ none := by simp [hu]
        have := hih.2 hu2
        have hcount : timeouts (Event.timeout :: es) = timeouts es + 1 := by
          simp [timeouts]
        constructor
        · intro _
          rw [hcount, this.1]
          exact ⟨le_refl _, by simp [this.2]⟩
        · intro hne; exact absurd hs hne
      · have hcount : timeouts (e :: es) = timeouts es := by
          simp only [timeouts]
          rw [List.count_cons_of_ne (Ne.symm he)]
        rw [hcount]
        constructor
        · intro hs
          exact hih.1 (by rw [hu]; exact hs)
        · intro hs
          exact hih.2 (by rw [hu]; exact hs)

/-- C24: the collector loop terminates for every link list. In any execution
with `N` links it receives at most `2 * N` outcomes and takes the timer branch
at most once, so it makes at most `2 * N + 1` iterations; an iteration
receives exactly one outcome or returns through the timer branch; the loop
has returned exactly when the timer branch was taken; and while it has not
returned, waiting 10 ms and taking the timer branch returns the count. -/
theorem collector_terminates (links : List String) (es : List Event) (t : CollectorState)
    (h : steps (launch links) es = some t) :
    receives es ≤ 2 * links.length ∧
    timeouts es ≤ 1 ∧
    receives es + timeouts es ≤ 2 * links.length + 1 ∧
    (t.returned ≠ none ↔ Event.timeout ∈ es) ∧
    (∀ e u, step t e = some u → u.returned ≠ t.returned → e = .timeout) ∧
    (∀ i u, step t (.receive i) = some u →
      sendsLeft u.probes + 1 = sendsLeft t.probes ∧ u.returned = none) ∧
    (t.returned = none →
      ∃ u, steps t [.advance timeoutMs, .timeout] = some u ∧
        u.returned = some t.inaccessibleLinksCount) := by
  have hsends := steps_sends es (launch links) t h
  have hlaunch : sendsLeft (launch links).probes = 2 * links.length := sendsLeft_launch links
  have htime := (steps_timeouts es (launch links) t h).1 rfl
  have hrecv : receives es ≤ 2 * links.length := by omega
  refine ⟨hrecv, htime.1, by have := htime.1; omega, ?_, ?_, ?_, ?_⟩
  · rw [Ne, htime.2, timeouts, List.count_eq_zero, not_not]
  · intro e u hstep hne
    rcases step_returned_cases t u e hstep with ⟨he, _, _⟩ | ⟨_, hu⟩
    · exact he
    · exact absurd hu hne
  · intro i u hstep
    refine ⟨(step_sends t u (.receive i) hstep).2 rfl, ?_⟩
    rcases step_returned_cases t u (.receive i) hstep with ⟨he, _, _⟩ | ⟨_, hu⟩
    · simp at he
    · rw [hu]
      simp only [step] at hstep
      split at hstep
      · rename_i hr _
        exact hr
      · simp at hstep
  · intro hr
    have hle := (steps_timer es (launch links) t (le_refl _) h).1
    have hle2 : t.timerStart + timeoutMs ≤ t.now + timeoutMs := by omega
    exact ⟨{ t with now := t.now + timeoutMs, returned := some t.inaccessibleLinksCount },
      by simp [steps, step, hr, hle2], rfl⟩

/-- C24 at one link whose GET fails: two outcomes, then the timer branch. -/
theorem collector_terminates_witness :
    steps (launch ["https://unreachable.invalid"])
        [.getDone 0 true, .receive 0, .receive 0, .advance 10, .timeout] =
      some { probes := [.sending []], inaccessibleLinksCount := 1, now := 10, timerStart := 0,
             returned := some 1 } ∧
    receives [.getDone 0 true, .receive 0, .receive 0, .advance 10, .timeout] = 2 ∧
    timeouts [.getDone 0 true, .receive 0, .receive 0, .advance 10, .timeout] = 1 ∧
    receives [.getDone 0 true, .receive 0, .receive 0, .advance 10, .timeout] ≤
      2 * ["https://unreachable.invalid"].length :=
  ⟨by decide, by decide, by decide,
    (collector_terminates ["https://unreachable.invalid"]
      [.getDone 0 true, .receive 0, .receive 0, .advance 10, .timeout]
      { probes := [.sending []], inaccessibleLinksCount := 1, now := 10, timerStart := 0,
        returned := some 1 } (by decide)).1⟩

/-! ### The rendering of the heading counts -/

theorem toDigitsCore_append (fuel n : Nat) (ds : List Char) :
    Nat.toDigitsCore 10 fuel n ds = Nat.toDigitsCore 10 fuel n [] ++ ds := by
  induction fuel generalizing n ds with
  | zero => simp [Nat.toDigitsCore]
  | succ fuel ih =>
    simp only [Nat.toDigitsCore]
    by_cases h : n / 10 = 0
    · simp [h]
    · simp only [h, if_false]
      rw [ih (n / 10) (Nat.digitChar (n % 10) :: ds), ih (n / 10) [Nat.digitChar (n % 10)]]
      simp

theorem digitChar_value (d : Nat) (h : d < 10) : (Nat.digitChar d).toNat - 48 = d := by
  interval_cases d <;> rfl

theorem digitChar_ne_space (d : Nat) (h : d < 10) : Nat.digitChar d ≠ ' ' := by
  interval_cases d <;> decide

theorem digitsValue_snoc (xs : List Char) (c : Char) :
    digitsValue (xs ++ [c]) = digitsValue xs * 10 + (c.toNat - 48) := by
  simp [digitsValue, List.foldl_append]

theorem digitsValue_toDigitsCore (fuel n : Nat) (h : n < fuel) :
    digitsValue (Nat.toDigitsCore 10 fuel n []) = n := by
  induction fuel generalizing n with
  | zero => omega
  | succ fuel ih =>
    simp only [Nat.toDigitsCore]
    by_cases h0 : n / 10 = 0
    · simp only [h0, if_true]
      have hlt : n % 10 < 10 := Nat.mod_lt _ (by decide)
      have := digitsValue_snoc [] (Nat.digitChar (n % 10))
      simp only [List.nil_append] at this
      rw [this, digitChar_value _ hlt]
      simp [digitsValue]
      omega
    · simp only [h0, if_false]
      rw [toDigitsCore_append, digitsValue_snoc, ih (n / 10) (by omega),
        digitChar_value _ (Nat.mod_lt _ (by decide))]
      omega

theorem toDigitsCore_no_space (fuel n : Nat) (ds : List Char) (hds : ' ' ∉ ds) :
    ' ' ∉ Nat.toDigitsCore 10 fuel n ds := by
  induction fuel generalizing n ds with
  | zero => simpa [Nat.toDigitsCore] using hds
  | succ fuel ih =>
    simp only [Nat.toDigitsCore]
    have hd : ' ' ∉ Nat.digitChar (n % 10) :: ds := by
      simp only [List.mem_cons, not_or]
      exact ⟨(digitChar_ne_space _ (Nat.mod_lt _ (by decide))).symm, hds⟩
    by_cases h0 : n / 10 = 0
    · simpa [h0] using hd
    · simp only [h0, if_false]
      exact ih _ _ hd

theorem repr_injective (a b : Nat) (h : Nat.repr a = Nat.repr b) : a = b := by
  have h2 : Nat.toDigits 10 a = Nat.toDigits 10 b := by
    have := congrArg String.data h
    simpa [Nat.repr] using this
  have ha := digitsValue_toDigitsCore (a + 1) a (by omega)
  have hb := digitsValue_toDigitsCore (b + 1) b (by omega)
  unfold Nat.toDigits at h2
  rw [h2] at ha
  omega

theorem repr_no_space (a : Nat) : ' ' ∉ (Nat.repr a).data := by
  simp only [Nat.repr, Nat.toDigits]
  exact toDigitsCore_no_space _ _ [] (by simp)

theorem split_at_space (A B R R2 : List Char) (hA : ' ' ∉ A) (hB : ' ' ∉ B)
    (h : A ++ ' ' :: R = B ++ ' ' :: R2) : A = B ∧ R = R2 := by
  induction A generalizing B with
  | nil =>
    cases B with
    | nil => simpa using h
    | cons b B2 =>
      simp only [List.nil_append, List.cons_append, List.cons.injEq] at h
      simp [← h.1] at hB
  | cons a A2 ih =>
    cases B with
    | nil =>
      simp only [List.nil_append, List.cons_append, List.cons.injEq] at h
      simp [h.1] at hA
    | cons b B2 =>
      simp only [List.cons_append, List.cons.injEq] at h
      simp only [List.mem_cons, not_or] at hA hB
      have := ih B2 hA.2 hB.2 h.2
      exact ⟨by rw [h.1, this.1], this.2⟩

theorem field_split (sep A B R R2 : List Char) (hA : ' ' ∉ A) (hB : ' ' ∉ B)
    (h : A ++ ((' ' :: sep) ++ R) = B ++ ((' ' :: sep) ++ R2)) : A = B ∧ R = R2 := by
  simp only [List.cons_append] at h
  have := split_at_space A B (sep ++ R) (sep ++ R2) hA hB h
  exact ⟨this.1, List.append_cancel_left this.2⟩

theorem toString_nat_data_inj (a b : Nat) (h : (toString a).data = (toString b).data) : a = b :=
  repr_injective a b (String.ext h)

theorem headingsLine_injective (a1 a2 a3 a4 a5 a6 b1 b2 b3 b4 b5 b6 : Nat)
    (h : headingsLine a1 a2 a3 a4 a5 a6 = headingsLine b1 b2 b3 b4 b5 b6) :
    a1 = b1 ∧ a2 = b2 ∧ a3 = b3 ∧ a4 = b4 ∧ a5 = b5 ∧ a6 = b6 := by
  have hd := congrArg String.data h
  simp only [headingsLine, String.data_append, List.append_assoc] at hd
  have ns : ∀ n : Nat, ' ' ∉ (toString n).data := repr_no_space
  have h1 := field_split _ _ _ _ _ (ns a1) (ns b1) (List.append_cancel_left hd)
  have h2 := field_split _ _ _ _ _ (ns a2) (ns b2) h1.2
  have h3 := field_split _ _ _ _ _ (ns a3) (ns b3) h2.2
  have h4 := field_split _ _ _ _ _ (ns a4) (ns b4) h3.2
  have h5 := field_split _ _ _ _ _ (ns a5) (ns b5) h4.2
  exact ⟨toString_nat_data_inj _ _ h1.1, toString_nat_data_inj _ _ h2.1,
    toString_nat_data_inj _ _ h3.1, toString_nat_data_inj _ _ h4.1,
    toString_nat_data_inj _ _ h5.1, toString_nat_data_inj _ _ h5.2⟩

theorem sprintd_natCast (n : Nat) : sprintd (n : Int) = toString n :=
  rfl

/-- The string of `detectHeadingsCountByLevel` is the line of the six counts. -/
theorem detectHeadingsCountByLevel_eq_line (query : Document) :
    detectHeadingsCountByLevel query =
      headingsLine (countElements "h1" query) (countElements "h2" query)
        (countElements "h3" query) (countElements "h4" query) (countElements "h5" query)
        (countElements "h6" query) := by
  unfold detectHeadingsCountByLevel headingsLine
  simp only [Length_Find_tag query "h1" (by decide), Length_Find_tag query "h2" (by decide),
    Length_Find_tag query "h3" (by decide), Length_Find_tag query "h4" (by decide),
    Length_Find_tag query "h5" (by decide), Length_Find_tag query "h6" (by decide),
    sprintd_natCast]
  have e2 : ("  h2: " : String) = "  " ++ "h2: " := by decide
  have e3 : ("  h3: " : String) = "  " ++ "h3: " := by decide
  have e4 : ("  h4: " : String) = "  " ++ "h4: " := by decide
  have e5 : ("  h5: " : String) = "  " ++ "h5: " := by decide
  have e6 : ("  h6:   " : String) = "  " ++ ("h6:  " ++ " ") := by decide
  rw [e2, e3, e4, e5, e6]
  simp only [String.append_assoc]

/-- C23: for the six heading counts of a document `detectHeadingsCountByLevel`
returns the line `h1: c1  h2: c2  h3: c3  h4: c4  h5: c5  h6:   c6`; the line
determines the six counts, so two documents get the same string exactly when
their six heading counts are equal. -/
theorem headings_rendering (q1 q2 : Document) :
    detectHeadingsCountByLevel q1 =
      headingsLine (countElements "h1" q1) (countElements "h2" q1) (countElements "h3" q1)
        (countElements "h4" q1) (countElements "h5" q1) (countElements "h6" q1) ∧
    (∀ a1 a2 a3 a4 a5 a6 b1 b2 b3 b4 b5 b6 : Nat,
      headingsLine a1 a2 a3 a4 a5 a6 = headingsLine b1 b2 b3 b4 b5 b6 ↔
        a1 = b1 ∧ a2 = b2 ∧ a3 = b3 ∧ a4 = b4 ∧ a5 = b5 ∧ a6 = b6) ∧
    (detectHeadingsCountByLevel q1 = detectHeadingsCountByLevel q2 ↔
      countElements "h1" q1 = countElements "h1" q2 ∧
      countElements "h2" q1 = countElements "h2" q2 ∧
      countElements "h3" q1 = countElements "h3" q2 ∧
      countElements "h4" q1 = countElements "h4" q2 ∧
      countElements "h5" q1 = countElements "h5" q2 ∧
      countElements "h6" q1 = countElements "h6" q2) ∧
    headingsLine 3 0 0 0 0 12 = "h1: 3  h2: 0  h3: 0  h4: 0  h5: 0  h6:   12" := by
  have hinj : ∀ a1 a2 a3 a4 a5 a6 b1 b2 b3 b4 b5 b6 : Nat,
      headingsLine a1 a2 a3 a4 a5 a6 = headingsLine b1 b2 b3 b4 b5 b6 ↔
        a1 = b1 ∧ a2 = b2 ∧ a3 = b3 ∧ a4 = b4 ∧ a5 = b5 ∧ a6 = b6 := by
    intro a1 a2 a3 a4 a5 a6 b1 b2 b3 b4 b5 b6
    constructor
    · exact headingsLine_injective a1 a2 a3 a4 a5 a6 b1 b2 b3 b4 b5 b6
    · rintro ⟨rfl, rfl, rfl, rfl, rfl, rfl⟩
      rfl
  refine ⟨detectHeadingsCountByLevel_eq_line q1, hinj, ?_, by decide⟩
  rw [detectHeadingsCountByLevel_eq_line q1, detectHeadingsCountByLevel_eq_line q2]
  exact hinj _ _ _ _ _ _ _ _ _ _ _ _

/-! ### Two runs over the same content -/

/-- The result of `Search` once the page is fetched, parsed and serialized. -/
theorem Search_ok (w : World) (URL : String) (resp : Response) (doc : Document)
    (html : String) (hget : w.httpGet URL = .ok resp) (hs : resp.StatusCode = 200)
    (hp : w.NewDocumentFromReader resp.Body = .ok doc)
    (hh : doc.Html w.render = (html, none)) :
    ((Search w URL).url, (Search w URL).err) =
      afterCreate (w.repo.Create (detectHTMLVersion w.order html) (detectPageTitle doc)
        (detectHeadingsCountByLevel doc) (detectLinks doc)
        (detectInaccessibleLinksCount doc w.schedule) (detectHaveLoginForm w.render doc)) := by
  simp only [Search, hget, hs, hp, hh, ne_eq, not_true_eq_false, if_false]
  generalize w.repo.Create _ _ _ _ _ _ = r
  rcases r with ⟨info, _ | err⟩ <;> rfl

/-- The result of `Search` when the serialization fails. -/
theorem Search_html_error (w : World) (URL : String) (resp : Response) (doc : Document)
    (x : String) (e : GoError) (hget : w.httpGet URL = .ok resp) (hs : resp.StatusCode = 200)
    (hp : w.NewDocumentFromReader resp.Body = .ok doc)
    (hh : doc.Html w.render = (x, some e)) :
    Search w URL =
      ⟨internal.URL.zero, some (.wrapped "doc.Html" e),
        [.httpGet URL, .newDocumentFromReader, .docHtml, .bodyClose]⟩ := by
  simp [Search, hget, hs, hp, hh]

/-- A record of results is given by its three fields. -/
theorem SearchResult_ext (a b : SearchResult) (h1 : (a.url, a.err) = (b.url, b.err))
    (h2 : a.calls = b.calls) : a = b := by
  cases a
  cases b
  simp only [Prod.mk.injEq] at h1
  simp only [SearchResult.mk.injEq]
  exact ⟨h1.1, h1.2, h2⟩

/-- When no entry matches, the loop keeps its start value. -/
theorem detect_foldl_none (html : String) (l : List (String × String)) (v : String)
    (h : ∀ e ∈ l, ¬ strings.Contains html e.2 = true) :
    l.foldl (detectStep html) v = v := by
  rw [detect_foldl]
  have : l.reverse.find? (fun e => strings.Contains html e.2) = none := by
    rw [List.find?_eq_none]
    intro e he
    exact h e (List.mem_reverse.mp he)
  rw [this]
  rfl

/-- On a text with at most one signature the iteration order has no effect. -/
theorem detectHTMLVersion_order_free (o1 o2 : List (String × String))
    (h1 : IterationOrder o1) (h2 : IterationOrder o2) (html : String)
    (hone : AtMostOneSignature html) :
    detectHTMLVersion o1 html = detectHTMLVersion o2 html := by
  by_cases hex : ∃ e ∈ doctypes, OccursIn e.2 html
  · obtain ⟨e, he, hocc⟩ := hex
    have hothers : ∀ f ∈ doctypes, f ≠ e → ¬ OccursIn f.2 html := by
      intro f hf hne hf2
      exact hne (hone f hf e he hf2 hocc)
    rw [detectHTMLVersion_single o1 h1 html e he hocc hothers,
      detectHTMLVersion_single o2 h2 html e he hocc hothers]
  · have hnone : ∀ o : List (String × String), IterationOrder o →
        detectHTMLVersion o html = "UNKNOWN" := by
      intro o ho
      apply detect_foldl_none
      intro e he hc
      exact hex ⟨e, ho.mem_iff.mp he, (Contains_iff html e.2).mp hc⟩
    rw [hnone o1 h1, hnone o2 h2]

/-- Without links the run of the probes has no effect on the count. -/
theorem count_no_links (doc : Document) (h : extractLinks doc = []) (schedule : List Event) :
    detectInaccessibleLinksCount doc schedule = 0 := by
  have hb := detectInaccessibleLinksCount_bounds doc schedule
  rw [h] at hb
  simp only [List.length_nil, Nat.cast_zero] at hb
  omega

/-- C14, amended: two runs of `Search` over the same fetched content, whatever
their iteration orders and runs of the probes, return what `repo.Create`
returns at the same page title, headings, number of links and login flag;
only the HTML version and the count of inaccessible links can differ, each
count lying between 0 and the number of links. The HTML version is the same
when at most one signature of the table occurs in the text, and the count is
the same when the document has no link under body; when both hold on the
success path, the two runs have the same result. -/
theorem Search_same_content (w1 w2 : World) (URL : String)
    (hget : w1.httpGet = w2.httpGet)
    (hparse : w1.NewDocumentFromReader = w2.NewDocumentFromReader)
    (hrender : w1.render = w2.render) (hrepo : w1.repo = w2.repo) :
    (∀ resp doc html, w1.httpGet URL = .ok resp → resp.StatusCode = 200 →
      w1.NewDocumentFromReader resp.Body = .ok doc → doc.Html w1.render = (html, none) →
      ((Search w1 URL).url, (Search w1 URL).err) =
        afterCreate (w1.repo.Create (detectHTMLVersion w1.order html) (detectPageTitle doc)
          (detectHeadingsCountByLevel doc) (detectLinks doc)
          (detectInaccessibleLinksCount doc w1.schedule)
          (detectHaveLoginForm w1.render doc)) ∧
      ((Search w2 URL).url, (Search w2 URL).err) =
        afterCreate (w1.repo.Create (detectHTMLVersion w2.order html) (detectPageTitle doc)
          (detectHeadingsCountByLevel doc) (detectLinks doc)
          (detectInaccessibleLinksCount doc w2.schedule)
          (detectHaveLoginForm w1.render doc)) ∧
      (0 ≤ detectInaccessibleLinksCount doc w1.schedule ∧
        detectInaccessibleLinksCount doc w1.schedule ≤ detectLinks doc) ∧
      (0 ≤ detectInaccessibleLinksCount doc w2.schedule ∧
        detectInaccessibleLinksCount doc w2.schedule ≤ detectLinks doc) ∧
      (IterationOrder w1.order → IterationOrder w2.order → AtMostOneSignature html →
        detectHTMLVersion w1.order html = detectHTMLVersion w2.order html) ∧
      (extractLinks doc = [] →
        detectInaccessibleLinksCount doc w1.schedule =
          detectInaccessibleLinksCount doc w2.schedule)) ∧
    (IterationOrder w1.order → IterationOrder w2.order →
      (∀ resp doc html, w1.httpGet URL = .ok resp → resp.StatusCode = 200 →
        w1.NewDocumentFromReader resp.Body = .ok doc → doc.Html w1.render = (html, none) →
        AtMostOneSignature html ∧ extractLinks doc = []) →
      Search w1 URL = Search w2 URL) := by
  constructor
  · intro resp doc html hg hs hp hh
    have hg2 : w2.httpGet URL = .ok resp := by rw [← hget]; exact hg
    have hp2 : w2.NewDocumentFromReader resp.Body = .ok doc := by rw [← hparse]; exact hp
    have hh2 : doc.Html w2.render = (html, none) := by rw [← hrender]; exact hh
    refine ⟨Search_ok w1 URL resp doc html hg hs hp hh, ?_, count_between _ _,
      count_between _ _, ?_, ?_⟩
    · rw [Search_ok w2 URL resp doc html hg2 hs hp2 hh2, hrepo, hrender]
    · intro h1 h2 hone
      exact detectHTMLVersion_order_free _ _ h1 h2 html hone
    · intro hno
      rw [count_no_links doc hno, count_no_links doc hno]
  · intro h1 h2 hcond
    cases hg : w1.httpGet URL with
    | error e =>
      exact ((Search_early w1 URL (Or.inl ⟨e, hg⟩)).1 w2 hget.symm hparse.symm).symm
    | ok resp =>
      by_cases hs : resp.StatusCode = 200
      · cases hp : w1.NewDocumentFromReader resp.Body with
        | error e =>
          exact ((Search_early w1 URL (Or.inr (Or.inr ⟨resp, e, hg, hp⟩))).1 w2 hget.symm
            hparse.symm).symm
        | ok doc =>
          have hg2 : w2.httpGet URL = .ok resp := by rw [← hget]; exact hg
          have hp2 : w2.NewDocumentFromReader resp.Body = .ok doc := by
            rw [← hparse]; exact hp
          cases hh : doc.Html w1.render with
          | mk html herr =>
            have hh2 : doc.Html w2.render = (html, herr) := by rw [← hrender]; exact hh
            cases herr with
            | some e =>
              rw [Search_html_error w1 URL resp doc html e hg hs hp hh,
                Search_html_error w2 URL resp doc html e hg2 hs hp2 hh2]
            | none =>
              obtain ⟨hone, hno⟩ := hcond resp doc html hg hs hp hh
              have hv := detectHTMLVersion_order_free _ _ h1 h2 html hone
              have hn : detectInaccessibleLinksCount doc w1.schedule =
                  detectInaccessibleLinksCount doc w2.schedule := by
                rw [count_no_links doc hno, count_no_links doc hno]
              apply SearchResult_ext
              · rw [Search_ok w1 URL resp doc html hg hs hp hh,
                  Search_ok w2 URL resp doc html hg2 hs hp2 hh2, hrepo, hrender, hv, hn]
              · rw [Search_ok_calls w1 URL resp doc html hg hs hp hh,
                  Search_ok_calls w2 URL resp doc html hg2 hs hp2 hh2, hrender, hv, hn]
      · exact ((Search_early w1 URL (Or.inr (Or.inl ⟨resp, hg, hs⟩))).1 w2 hget.symm
          hparse.symm).symm

/-- At most one signature occurs in a text when `strings.Contains` finds at
most one. -/
theorem atMostOne_of_contains (html : String)
    (h : ∀ e ∈ doctypes, ∀ f ∈ doctypes, strings.Contains html e.2 = true →
      strings.Contains html f.2 = true → e = f) :
    AtMostOneSignature html := by
  intro e he f hf hoe hof
  exact h e he f hf ((Contains_iff html e.2).mpr hoe) ((Contains_iff html f.2).mpr hof)

/-- The page of `oneSignatureWorld` serializes to a text with one signature and
has no link. -/
theorem oneSignatureWorld_path (order : List (String × String)) (schedule : List Event)
    (resp : Response) (doc : Document) (html : String)
    (hp : (oneSignatureWorld order schedule).NewDocumentFromReader resp.Body = .ok doc)
    (hh : doc.Html (oneSignatureWorld order schedule).render = (html, none)) :
    AtMostOneSignature html ∧ extractLinks doc = [] := by
  have hdoc : oneSignatureDoc = doc := by
    simp only [oneSignatureWorld, Except.ok.injEq] at hp
    exact hp
  subst hdoc
  have hcomp : oneSignatureDoc.Html sampleRender =
      ("<!DOCTYPE html><html>Thello</html>", none) := by decide
  have hhtml : html = "<!DOCTYPE html><html>Thello</html>" := by
    have h2 : oneSignatureDoc.Html sampleRender = (html, none) := hh
    rw [hcomp] at h2
    simp only [Prod.mk.injEq, and_true] at h2
    exact h2.symm
  subst hhtml
  exact ⟨atMostOne_of_contains _ (by decide), by decide⟩

/-- C14, amended, at two runs over a page with one signature and no link, under
two iteration orders and two runs of the probes, and at two runs over the page
with two signatures and one link. -/
theorem Search_same_content_witness :
    IterationOrder doctypes ∧ IterationOrder doctypes.reverse ∧
    Search (oneSignatureWorld doctypes [.advance 10, .timeout]) "http://a.test" =
      Search (oneSignatureWorld doctypes.reverse [.advance 3, .advance 9, .timeout])
        "http://a.test" ∧
    (Search (oneSignatureWorld doctypes [.advance 10, .timeout]) "http://a.test").url =
      ⟨"7f9c24e8-3b1a-4c5d-9e2f-0a1b2c3d4e5f", "HTML 5", "T",
        "h1: 1  h2: 0  h3: 0  h4: 0  h5: 0  h6:   0", 0, 0, false⟩ ∧
    (((Search (twoSignaturesWorld doctypes [.advance 10, .timeout]) "http://a.test").url,
        (Search (twoSignaturesWorld doctypes [.advance 10, .timeout]) "http://a.test").err) =
      afterCreate (echoRepo.Create "HTML 5" ""
        "h1: 0  h2: 0  h3: 0  h4: 0  h5: 0  h6:   0" 1 0 false) ∧
     ((Search (twoSignaturesWorld doctypes.reverse [.getDone 0 true, .receive 0, .receive 0,
          .advance 10, .timeout]) "http://a.test").url,
        (Search (twoSignaturesWorld doctypes.reverse [.getDone 0 true, .receive 0, .receive 0,
          .advance 10, .timeout]) "http://a.test").err) =
      afterCreate (echoRepo.Create "XHTML 1.1" ""
        "h1: 0  h2: 0  h3: 0  h4: 0  h5: 0  h6:   0" 1 1 false)) :=
  ⟨List.Perm.refl _, List.reverse_perm _,
    (Search_same_content (oneSignatureWorld doctypes [.advance 10, .timeout])
      (oneSignatureWorld doctypes.reverse [.advance 3, .advance 9, .timeout]) "http://a.test"
      rfl rfl rfl rfl).2 (List.Perm.refl _) (List.reverse_perm _)
      (fun resp doc html _ _ hp hh =>
        oneSignatureWorld_path doctypes [.advance 10, .timeout] resp doc html hp hh),
    by decide,
    ⟨((Search_same_content (twoSignaturesWorld doctypes [.advance 10, .timeout])
        (twoSignaturesWorld doctypes.reverse [.getDone 0 true, .receive 0, .receive 0,
          .advance 10, .timeout]) "http://a.test" rfl rfl rfl rfl).1 ⟨200, ""⟩
        twoSignaturesDoc
        "<!DOCTYPE html><html>var d = '\"-//W3C//DTD XHTML 1.1//EN\"';x</html>"
        rfl rfl rfl (by decide)).1,
     ((Search_same_content (twoSignaturesWorld doctypes [.advance 10, .timeout])
        (twoSignaturesWorld doctypes.reverse [.getDone 0 true, .receive 0, .receive 0,
          .advance 10, .timeout]) "http://a.test" rfl rfl rfl rfl).1 ⟨200, ""⟩
        twoSignaturesDoc
        "<!DOCTYPE html><html>var d = '\"-//W3C//DTD XHTML 1.1//EN\"';x</html>"
        rfl rfl rfl (by decide)).2.1⟩⟩

end UriInfo
